import Mathlib

/-!
Pod lifecycle controller and guest-agent TTY framing.

A shallow embedding of `api/qemu/qemuLoop.go` (the event-driven state machine
of the pod lifecycle controller), of `api/qemu/tty.go` (the frame reader and
writer, the session map of the guest-agent TTY, the serial TTY context and the
line splitter) and of the provisioner `CreateContainer` of `api/qemu/drive.go`.

Channels are modelled by the list of values written to them, oldest first.
Goroutine launches and timers are recorded in the same way.  The device
bookkeeping of `QemuContext` lives in another file of the repository; it is
taken as a parameter (`DeviceOps`) over an arbitrary bookkeeping state.
Go `int` is taken to be 64 bits wide.
-/

namespace Qemu

/-- A byte string; every element stands for one octet. -/
abbrev Bytes := List Nat

/-! ## Messages on the controller's channels -/

/-- Modelled from the spec: the response codes of the client RPC, declared in
the `types` package (`E_SHUTDOWM` is the spelling used by the source). -/
inductive RespCode where
  | E_OK
  | E_CONTEXT_INIT_FAIL
  | E_INIT_FAIL
  | E_DEVICE_FAIL
  | E_JSON_PARSE_FAIL
  | E_EXEC_FINISH
  | E_SHUTDOWM
deriving DecidableEq, Repr

/-- Modelled from the spec: the response record `types.QemuResponse`
sent on `ctx.client`. -/
structure QemuResponse where
  VmId : String
  Code : RespCode
  Cause : String
  Data : Option Nat
deriving DecidableEq, Repr

/-- Modelled from the spec: request code `START_POD` of the guest-agent channel. -/
def INIT_STARTPOD : Nat := 1

/-- Modelled from the spec: request code `EXEC_CMD` of the guest-agent channel. -/
def INIT_EXECCMD : Nat := 2

/-- Modelled from the spec: request code `SHUTDOWN` of the guest-agent channel. -/
def INIT_SHUTDOWN : Nat := 3

/-- Modelled from the spec: the message record `DecodedMessage{code, message}`
written to `ctx.vm`. -/
structure DecodedMessage where
  code : Nat
  message : Bytes
deriving DecidableEq, Repr

/-- Modelled from the spec: the sessions submitted on `ctx.qmp`, one constructor
for each of `newDiskAddSession`, `newNetworkAddSession`, `newSerialPortSession`
and `newQuitSession`, carrying the arguments of the call. -/
inductive QmpSession where
  | diskAdd (name sourceType filename format : String) (id : Int)
  | networkAdd (fd : Nat) (device : String) (index addr : Int)
  | serialPort (sockName : String) (index addr : Int)
  | quit
deriving DecidableEq, Repr

/-- Modelled from the spec: the type tag carried by a `QmpEvent` when QEMU
announces its shutdown. -/
def QMP_EVENT_SHUTDOWN : String := "SHUTDOWN"

/-! ## Pod spec -/

/-- Modelled from the spec: a file entry of the pod spec (`pod.UserFile`). -/
structure UserFile where
  Name : String
  Uri : String
deriving DecidableEq, Repr

/-- Modelled from the spec: a file injection of a container. -/
structure UserFileReference where
  Path : String
  Filename : String
  Perm : String
deriving DecidableEq, Repr

/-- Modelled from the spec: a container of the pod spec. -/
structure UserContainer where
  Image : String
  Files : List UserFileReference
deriving DecidableEq, Repr

/-- Modelled from the spec: a volume of the pod spec. -/
structure UserVolume where
  Name : String
  Source : String
deriving DecidableEq, Repr

/-- Modelled from the spec: the pod spec `pod.UserPod`. -/
structure UserPod where
  Containers : List UserContainer
  Files : List UserFile
  Volumes : List UserVolume
deriving DecidableEq, Repr

/-! ## Events -/

structure ExecCommand where
  Command : List String
  Container : String
deriving DecidableEq, Repr

structure ContainerCreatedEvent where
  Index : Int
  Id : String
  Rootfs : String
  Image : String
  Fstype : String
  Workdir : String
  Cmd : List String
  Envs : List (String × String)
deriving DecidableEq, Repr

structure VolumeReadyEvent where
  Name : String
  Filepath : String
  Fstype : String
  Format : String
deriving DecidableEq, Repr

structure BlockdevInsertedEvent where
  Name : String
  SourceType : String
  DeviceName : String
deriving DecidableEq, Repr

structure RouteRule where
  Destination : String
  Gateway : String
  ViaThis : Bool
deriving DecidableEq, Repr

structure InterfaceCreated where
  Index : Int
  PCIAddr : Int
  Fd : Nat
  DeviceName : String
  IpAddr : String
  NetMask : String
  RouteTable : List RouteRule
deriving DecidableEq, Repr

structure NetDevInsertedEvent where
  Index : Int
  DeviceName : String
  Address : Int
deriving DecidableEq, Repr

structure SerialAddEvent where
  Index : Int
  PortName : String
deriving DecidableEq, Repr

/-- The `TC` pointer is modelled by a handle. -/
structure TtyOpenEvent where
  Index : Int
  TC : Nat
deriving DecidableEq, Repr

/-- The events of `qemuLoop.go` (those with an `Event()` method there) and the
`QmpEvent` that `commonStateHandler` inspects.  Pointers to connections,
callback channels and terminals are modelled by handles; a nil connection is
`none`. -/
inductive QemuEvent where
  | QemuExitEvent (message : String)
  | QemuTimeout
  | InitFailedEvent (reason : String)
  | InitConnectedEvent (conn : Option Nat)
  | RunPodCommand (Spec : UserPod)
  | ExecCommand (cmd : Qemu.ExecCommand)
  | ShutdownCommand
  | AttachCommand (container : String) (callback : Nat)
  | DetachCommand (container : String) (tty : Nat)
  | CommandAck (reply : Nat) (msg : Bytes)
  | ContainerCreatedEvent (info : Qemu.ContainerCreatedEvent)
  | VolumeReadyEvent (info : Qemu.VolumeReadyEvent)
  | BlockdevInsertedEvent (info : Qemu.BlockdevInsertedEvent)
  | InterfaceCreated (info : Qemu.InterfaceCreated)
  | NetDevInsertedEvent (info : Qemu.NetDevInsertedEvent)
  | SerialAddEvent (info : Qemu.SerialAddEvent)
  | TtyOpenEvent (info : Qemu.TtyOpenEvent)
  | QmpEvent (type : String)
deriving DecidableEq, Repr

/-! ## Controller context -/

/-- The four state handlers a context can point at; a nil handler pointer is
`none : Option Handler`. -/
inductive Handler where
  | init
  | running
  | terminating
  | cleaningUp
deriving DecidableEq, Repr

/-- The goroutines the state handlers launch, with the arguments of the call. -/
inductive Spawned where
  | waitCmdToInit (conn : Nat)
  | CreateContainer (spec : UserPod)
  | CreateInterface (index : Nat) (pciAddr : Int) (name : String) (isDefault : Bool)
  | attachSerialPort (index : Nat)
deriving DecidableEq, Repr

/-- Terminal operations requested by `stateRunning`: `Get` answers on the
callback channel of an attach command, `Drop` removes a terminal.  The
container is `none` for the VM console. -/
inductive TtyRequest where
  | get (container : Option Int) (callback : Nat)
  | drop (container : Option Int) (tty : Nat)
deriving DecidableEq, Repr

/-- A volume waiting for its block device, as read by `prepareDevice` from
`ctx.devices.volumeMap`. -/
structure VolumeInfo where
  name : String
  filename : String
  format : String
deriving DecidableEq, Repr

/-- The device bookkeeping of `QemuContext`, whose code is outside the three
source files: every method the state handlers call, over a bookkeeping state
`δ`.  `marshalSpec` is `json.Marshal(*ctx.vmSpec)` and `marshalExec` is
`json.Marshal(*cmd)`, with `none` for an encoding error. -/
structure DeviceOps (δ : Type) where
  deviceReady : δ → Bool
  containerCreated : δ → ContainerCreatedEvent → δ × Bool
  volumeReady : δ → VolumeReadyEvent → δ × Bool
  blockdevInserted : δ → BlockdevInsertedEvent → δ
  interfaceCreated : δ → InterfaceCreated → δ
  netdevInserted : δ → NetDevInsertedEvent → δ
  serialAttached : δ → SerialAddEvent → δ
  ttyOpened : δ → TtyOpenEvent → δ
  nextScsiId : δ → δ × Int
  nextPciAddr : δ → δ × Int
  InitDeviceContext : δ → UserPod → Nat → δ
  containerCount : δ → Nat
  addingBlockdevs : δ → List VolumeInfo
  marshalSpec : δ → Option Bytes
  marshalExec : ExecCommand → Option Bytes
  Lookup : δ → String → Int

/-- The controller context: the handler pointer, the bookkeeping state and
what has been written so far to each channel (`vm`, `qmp`, `client`, `hub`),
the goroutines launched, the terminal requests, the watchdog timers armed
(their delay in seconds) and the number of calls of `ctx.Close()`. -/
structure QemuContext (δ : Type) where
  id : String
  handler : Option Handler
  dev : δ
  vm : List DecodedMessage
  qmp : List QmpSession
  client : List QemuResponse
  hub : List QemuEvent
  spawned : List Spawned
  ttyRequests : List TtyRequest
  watchdogs : List Nat
  closeCalls : Nat

variable {δ : Type}

/-- Modelled from the spec: `ctx.Become(h)` makes `h` the active handler. -/
def QemuContext.Become (ctx : QemuContext δ) (h : Option Handler) : QemuContext δ :=
  { ctx with handler := h }

/-- Modelled from the spec: `ctx.Close()` closes the resources of the context
(the bus among them); the model counts the calls and keeps the handler. -/
def QemuContext.Close (ctx : QemuContext δ) : QemuContext δ :=
  { ctx with closeCalls := ctx.closeCalls + 1 }

def onQemuExit (ctx : QemuContext δ) : QemuContext δ :=
  ctx.Become (some Handler.cleaningUp)

def runPod (ops : DeviceOps δ) (ctx : QemuContext δ) : QemuContext δ :=
  match ops.marshalSpec ctx.dev with
  | none => ctx
  | some pod => { ctx with vm := ctx.vm ++ [DecodedMessage.mk INIT_STARTPOD pod] }

/-- One round of the last loop of `prepareDevice`: allocate a SCSI id and
submit the disk-add session of a volume. -/
def addVolumeDisk (ops : DeviceOps δ) (ctx : QemuContext δ) (info : VolumeInfo) :
    QemuContext δ :=
  let r := ops.nextScsiId ctx.dev
  { ctx with dev := r.1,
             qmp := ctx.qmp ++ [QmpSession.diskAdd info.name "volume" info.filename info.format r.2] }

def prepareDevice (ops : DeviceOps δ) (ctx : QemuContext δ) (spec : UserPod) : QemuContext δ :=
  let networks := 1
  let ctx1 := { ctx with dev := ops.InitDeviceContext ctx.dev spec networks }
  let ctx2 := { ctx1 with spawned := ctx1.spawned ++ [Spawned.CreateContainer spec] }
  let ctx3 := (List.range networks).foldl
    (fun c i =>
      let r := ops.nextPciAddr c.dev
      { c with dev := r.1,
               spawned := c.spawned ++
                 [Spawned.CreateInterface i r.2 ("eth" ++ toString i) (i == 0)] })
    ctx2
  let ctx4 := (List.range (ops.containerCount ctx3.dev)).foldl
    (fun c i => { c with spawned := c.spawned ++ [Spawned.attachSerialPort i] })
    ctx3
  (ops.addingBlockdevs ctx4.dev).foldl (addVolumeDisk ops) ctx4

def commonStateHandler (ctx : QemuContext δ) (ev : QemuEvent) : QemuContext δ × Bool :=
  match ev with
  | QemuEvent.QemuExitEvent _ => ((onQemuExit ctx).Close, true)
  | QemuEvent.QmpEvent ty =>
    if ty = QMP_EVENT_SHUTDOWN then (onQemuExit ctx, true) else (ctx, false)
  | QemuEvent.ShutdownCommand =>
    let ctx1 := { ctx with vm := ctx.vm ++ [DecodedMessage.mk INIT_SHUTDOWN []] }
    let ctx2 := { ctx1 with watchdogs := ctx1.watchdogs ++ [3] }
    (ctx2.Become (some Handler.terminating), true)
  | _ => (ctx, false)

/-- The branch shared by the readiness events of `stateInit`: start the pod
when the bookkeeping reports every device ready. -/
def runPodIfReady (ops : DeviceOps δ) (ctx : QemuContext δ) : QemuContext δ :=
  if ops.deviceReady ctx.dev then runPod ops ctx else ctx

def stateInit (ops : DeviceOps δ) (ctx : QemuContext δ) (ev : QemuEvent) : QemuContext δ :=
  let r := commonStateHandler ctx ev
  if r.2 then r.1 else
  let ctx := r.1
  match ev with
  | QemuEvent.InitConnectedEvent conn =>
    match conn with
    | some c => { ctx with spawned := ctx.spawned ++ [Spawned.waitCmdToInit c] }
    | none => ctx
  | QemuEvent.RunPodCommand spec => prepareDevice ops ctx spec
  | QemuEvent.CommandAck reply _ =>
    if reply = INIT_STARTPOD then
      let ctx1 := { ctx with client := ctx.client ++
        [QemuResponse.mk ctx.id RespCode.E_OK "Start POD success" none] }
      ctx1.Become (some Handler.running)
    else ctx
  | QemuEvent.ContainerCreatedEvent info =>
    let r := ops.containerCreated ctx.dev info
    let ctx1 := { ctx with dev := r.1 }
    if r.2 then
      let s := ops.nextScsiId ctx1.dev
      { ctx1 with dev := s.1,
                  qmp := ctx1.qmp ++ [QmpSession.diskAdd info.Image "image" info.Image "raw" s.2] }
    else runPodIfReady ops ctx1
  | QemuEvent.VolumeReadyEvent info =>
    let r := ops.volumeReady ctx.dev info
    let ctx1 := { ctx with dev := r.1 }
    if r.2 then
      let s := ops.nextScsiId ctx1.dev
      { ctx1 with dev := s.1,
                  qmp := ctx1.qmp ++
                    [QmpSession.diskAdd info.Name "volume" info.Filepath info.Format s.2] }
    else runPodIfReady ops ctx1
  | QemuEvent.BlockdevInsertedEvent info =>
    runPodIfReady ops { ctx with dev := ops.blockdevInserted ctx.dev info }
  | QemuEvent.InterfaceCreated info =>
    if info.IpAddr ≠ "" then
      let ctx1 := { ctx with dev := ops.interfaceCreated ctx.dev info }
      { ctx1 with qmp := ctx1.qmp ++
          [QmpSession.networkAdd info.Fd info.DeviceName info.Index info.PCIAddr] }
    else
      { ctx with client := ctx.client ++
          [QemuResponse.mk ctx.id RespCode.E_DEVICE_FAIL
             ("network interface " ++ toString info.Index ++ " creation fail") none] }
  | QemuEvent.NetDevInsertedEvent info =>
    runPodIfReady ops { ctx with dev := ops.netdevInserted ctx.dev info }
  | QemuEvent.SerialAddEvent info =>
    runPodIfReady ops { ctx with dev := ops.serialAttached ctx.dev info }
  | QemuEvent.TtyOpenEvent info =>
    runPodIfReady ops { ctx with dev := ops.ttyOpened ctx.dev info }
  | QemuEvent.InitFailedEvent reason =>
    { ctx with client := ctx.client ++
        [QemuResponse.mk ctx.id RespCode.E_INIT_FAIL reason none] }
  | _ => ctx

def stateRunning (ops : DeviceOps δ) (ctx : QemuContext δ) (ev : QemuEvent) : QemuContext δ :=
  let r := commonStateHandler ctx ev
  if r.2 then r.1 else
  let ctx := r.1
  match ev with
  | QemuEvent.ExecCommand cmd =>
    match ops.marshalExec cmd with
    | none =>
      { ctx with client := ctx.client ++
          [QemuResponse.mk ctx.id RespCode.E_JSON_PARSE_FAIL
             ("command " ++ toString cmd.Command ++ " parse failed") none] }
    | some pkg => { ctx with vm := ctx.vm ++ [DecodedMessage.mk INIT_EXECCMD pkg] }
  | QemuEvent.CommandAck _ _ => ctx
  | QemuEvent.AttachCommand container callback =>
    if container = "" then
      { ctx with ttyRequests := ctx.ttyRequests ++ [TtyRequest.get none callback] }
    else if 0 ≤ ops.Lookup ctx.dev container then
      { ctx with ttyRequests := ctx.ttyRequests ++
          [TtyRequest.get (some (ops.Lookup ctx.dev container)) callback] }
    else ctx
  | QemuEvent.DetachCommand container tty =>
    if container = "" then
      { ctx with ttyRequests := ctx.ttyRequests ++ [TtyRequest.drop none tty] }
    else if 0 ≤ ops.Lookup ctx.dev container then
      { ctx with ttyRequests := ctx.ttyRequests ++
          [TtyRequest.drop (some (ops.Lookup ctx.dev container)) tty] }
    else ctx
  | _ => ctx

def stateTerminating (ctx : QemuContext δ) (ev : QemuEvent) : QemuContext δ :=
  let r := commonStateHandler ctx ev
  if r.2 then r.1 else
  let ctx := r.1
  match ev with
  | QemuEvent.CommandAck _ _ => ctx
  | QemuEvent.QemuTimeout => { ctx with qmp := ctx.qmp ++ [QmpSession.quit] }
  | _ => ctx

def stateCleaningUp (ctx : QemuContext δ) (ev : QemuEvent) : QemuContext δ :=
  match ev with
  | QemuEvent.QemuExitEvent _ =>
    let ctx1 := ctx.Close.Become none
    { ctx1 with client := ctx1.client ++
        [QemuResponse.mk ctx1.id RespCode.E_SHUTDOWM "qemu shut down" none] }
  | _ => ctx

/-- The call `context.handler(context, ev)` of the main loop. -/
def Handler.run (ops : DeviceOps δ) (h : Handler) (ctx : QemuContext δ) (ev : QemuEvent) :
    QemuContext δ :=
  match h with
  | Handler.init => stateInit ops ctx ev
  | Handler.running => stateRunning ops ctx ev
  | Handler.terminating => stateTerminating ctx ev
  | Handler.cleaningUp => stateCleaningUp ctx ev

/-- One round of the loop of `QemuLoop` with the event `ev` received from the
hub: the loop body runs only while the handler pointer is not nil. -/
def dispatch (ops : DeviceOps δ) (ctx : QemuContext δ) (ev : QemuEvent) : QemuContext δ :=
  match ctx.handler with
  | none => ctx
  | some h => h.run ops ctx ev

/-- The loop of `QemuLoop` over the events received from the hub, in order. -/
def QemuLoop (ops : DeviceOps δ) (ctx : QemuContext δ) (evs : List QemuEvent) : QemuContext δ :=
  evs.foldl (dispatch ops) ctx

/-! ## The controller and its environment: bus queue and watchdog timers -/

/-- The controller with the part of its environment that feeds the bus: the
events queued in `ctx.hub` and the number of armed watchdogs whose callback
has already run. -/
structure World (δ : Type) where
  ctx : QemuContext δ
  queue : List QemuEvent
  fired : Nat

/-- What can happen next: a producer posts an event on the bus, the callback
of an armed watchdog runs, or the main loop receives the next queued event. -/
inductive Action where
  | post (ev : QemuEvent)
  | fire
  | recv
deriving DecidableEq, Repr

/-- The callback given to `time.AfterFunc` by `commonStateHandler`: it posts
`QemuTimeout` when the handler pointer is not nil. -/
def watchdogCallback (w : World δ) : World δ :=
  match w.ctx.handler with
  | some _ => { w with queue := w.queue ++ [QemuEvent.QemuTimeout] }
  | none => w

def World.step (ops : DeviceOps δ) (w : World δ) (a : Action) : World δ :=
  match a with
  | Action.post ev => { w with queue := w.queue ++ [ev] }
  | Action.fire =>
    if w.fired < w.ctx.watchdogs.length then
      watchdogCallback { w with fired := w.fired + 1 }
    else w
  | Action.recv =>
    match w.ctx.handler, w.queue with
    | some _, ev :: rest => { w with ctx := dispatch ops w.ctx ev, queue := rest }
    | _, _ => w

def World.run (ops : DeviceOps δ) (w : World δ) (acts : List Action) : World δ :=
  acts.foldl (World.step ops) w

/-! ## Counting what was written to the channels -/

/-- Number of `START_POD` messages among the messages written to `ctx.vm`. -/
def startPodCount (vm : List DecodedMessage) : Nat :=
  (vm.filter (fun m => m.code = INIT_STARTPOD)).length

/-- Number of quit sessions among the sessions submitted on `ctx.qmp`. -/
def quitCount (qmp : List QmpSession) : Nat :=
  (qmp.filter (fun q => q = QmpSession.quit)).length

/-- What `prepareDevice` leaves alone: the handler, the agent channel, the
client channel, the bus, the watchdogs, the close count, and the number of
quit sessions on the QMP channel. -/
def KeptByPrepare (ctx c : QemuContext δ) : Prop :=
  c.handler = ctx.handler ∧ c.vm = ctx.vm ∧ c.client = ctx.client ∧ c.hub = ctx.hub ∧
  c.watchdogs = ctx.watchdogs ∧ c.closeCalls = ctx.closeCalls ∧ c.id = ctx.id ∧
  quitCount c.qmp = quitCount ctx.qmp

/-- The events on which `stateInit` consults `deviceReady()`. -/
def isReadinessEvent (ev : QemuEvent) : Bool :=
  match ev with
  | QemuEvent.ContainerCreatedEvent _ => true
  | QemuEvent.VolumeReadyEvent _ => true
  | QemuEvent.BlockdevInsertedEvent _ => true
  | QemuEvent.NetDevInsertedEvent _ => true
  | QemuEvent.SerialAddEvent _ => true
  | QemuEvent.TtyOpenEvent _ => true
  | _ => false

/-- The events `commonStateHandler` handles itself. -/
def isCommonEvent (ev : QemuEvent) : Bool :=
  match ev with
  | QemuEvent.QemuExitEvent _ => true
  | QemuEvent.QmpEvent ty => ty = QMP_EVENT_SHUTDOWN
  | QemuEvent.ShutdownCommand => true
  | _ => false

def isQemuExit (ev : QemuEvent) : Bool :=
  match ev with
  | QemuEvent.QemuExitEvent _ => true
  | _ => false

/-- Number of QemuTimeout events in a list of events. -/
def timeoutCount (evs : List QemuEvent) : Nat :=
  (evs.filter (fun e => e = QemuEvent.QemuTimeout)).length

/-- Number of ShutdownCommand events in a list of events. -/
def shutdownCount (evs : List QemuEvent) : Nat :=
  (evs.filter (fun e => e = QemuEvent.ShutdownCommand)).length

/-- What one call of a state handler can add: a quit session only for a
QemuTimeout, a watchdog only for a ShutdownCommand; no watchdog is removed. -/
def RunBound (ctx : QemuContext δ) (ev : QemuEvent) (c : QemuContext δ) : Prop :=
  quitCount c.qmp ≤ quitCount ctx.qmp + (if ev = QemuEvent.QemuTimeout then 1 else 0) ∧
  ctx.watchdogs.length ≤ c.watchdogs.length ∧
  c.watchdogs.length ≤ ctx.watchdogs.length + (if ev = QemuEvent.ShutdownCommand then 1 else 0)

/-- The bookkeeping of a run of the controller in its environment, `n` being
the number of ShutdownCommand events posted so far: every quit session and
every queued QemuTimeout comes from a watchdog that fired, only armed
watchdogs fire, and every watchdog and every queued ShutdownCommand comes
from a posted ShutdownCommand. -/
def WatchdogInv (w : World δ) (n : Nat) : Prop :=
  quitCount w.ctx.qmp + timeoutCount w.queue ≤ w.fired ∧
  w.fired ≤ w.ctx.watchdogs.length ∧
  w.ctx.watchdogs.length + shutdownCount w.queue ≤ n

def isShutdownPost (a : Action) : Bool :=
  match a with
  | Action.post QemuEvent.ShutdownCommand => true
  | _ => false

def isTimeoutPost (a : Action) : Bool :=
  match a with
  | Action.post QemuEvent.QemuTimeout => true
  | _ => false

/-! ## A sample bookkeeping, used to run the handlers on concrete inputs -/

/-- A bookkeeping that only counts the devices still in progress: every
insertion takes one off, no slot needs a block device, and the pod is ready
when the count is zero. -/
def countingOps : DeviceOps Nat where
  deviceReady := fun d => d == 0
  containerCreated := fun d _ => (d - 1, false)
  volumeReady := fun d _ => (d - 1, false)
  blockdevInserted := fun d _ => d - 1
  interfaceCreated := fun d _ => d
  netdevInserted := fun d _ => d - 1
  serialAttached := fun d _ => d - 1
  ttyOpened := fun d _ => d - 1
  nextScsiId := fun d => (d, 0)
  nextPciAddr := fun d => (d, 0)
  InitDeviceContext := fun _ spec networks => 2 * spec.Containers.length + spec.Volumes.length + networks
  containerCount := fun _ => 0
  addingBlockdevs := fun _ => []
  marshalSpec := fun _ => some [123, 125]
  marshalExec := fun _ => some [123, 125]
  Lookup := fun _ _ => 0

/-- A fresh context over the counting bookkeeping with `pending` devices in
progress and handler `h`. -/
def freshContext (h : Handler) (pending : Nat) : QemuContext Nat :=
  { id := "vm-0", handler := some h, dev := pending, vm := [], qmp := [], client := [],
    hub := [], spawned := [], ttyRequests := [], watchdogs := [], closeCalls := 0 }

def sampleBlockInserted : QemuEvent :=
  QemuEvent.BlockdevInsertedEvent { Name := "vol0", SourceType := "volume", DeviceName := "sda" }

def sampleInterface (index : Int) (ip : String) : QemuEvent :=
  QemuEvent.InterfaceCreated
    { Index := index, PCIAddr := 5, Fd := 7, DeviceName := "eth0", IpAddr := ip,
      NetMask := "255.255.255.0", RouteTable := [] }

/-- A trace in which the client asks for shutdown twice and both watchdogs
fire before QEMU exits. -/
def twoShutdownsTrace : List Action :=
  [Action.post QemuEvent.ShutdownCommand, Action.recv,
   Action.post QemuEvent.ShutdownCommand, Action.recv,
   Action.fire, Action.recv, Action.fire, Action.recv]

/-- A trace with one shutdown request whose watchdog fires before QEMU exits. -/
def shutdownTimeoutTrace : List Action :=
  [Action.post QemuEvent.ShutdownCommand, Action.recv, Action.fire, Action.recv,
   Action.post (QemuEvent.QemuExitEvent "qemu exit with 0"), Action.recv]

/-! ## Guest-agent TTY: frames -/

structure ttyMessage where
  session : Nat
  message : Bytes
deriving DecidableEq, Repr

/-- The value of `binary.BigEndian.Uint32` / `Uint64` on a byte slice. -/
def bigEndian (bs : Bytes) : Nat :=
  bs.foldl (fun acc b => acc * 256 + b) 0

/-- The 8-byte big-endian encoding `be_u64` of the frame format. -/
def be_u64 (s : Nat) : Bytes :=
  [s / 2 ^ 56 % 256, s / 2 ^ 48 % 256, s / 2 ^ 40 % 256, s / 2 ^ 32 % 256,
   s / 2 ^ 24 % 256, s / 2 ^ 16 % 256, s / 2 ^ 8 % 256, s % 256]

/-- The 4-byte big-endian encoding `be_u32` of the frame format. -/
def be_u32 (n : Nat) : Bytes :=
  [n / 2 ^ 24 % 256, n / 2 ^ 16 % 256, n / 2 ^ 8 % 256, n % 256]

/-- The frame of the guest-agent channel as the specification writes it:
`be_u64 session || be_u32 length || payload`, the length counting the 12
header bytes. -/
def frame (s : Nat) (p : Bytes) : Bytes :=
  be_u64 s ++ be_u32 (12 + p.length) ++ p

/-- The read side of a connection: the bytes the peer has sent that are not
read yet, and for each of the coming reads how many bytes it would deliver at
most (a read delivers the whole request when the list is used up). -/
structure Conn where
  data : Bytes
  sizes : List Nat
deriving DecidableEq, Repr

/-- Errors of `readTtyMessage`: the error of `conn.Read`, and the marker of a
loop cut off by the bound on its rounds. -/
inductive ReadError where
  | EOF
  | cutOff
deriving DecidableEq, Repr

/-- The number of bytes `nr` a successful `conn.Read(buf[:want])` delivers:
at least one and at most `want` of the pending bytes. -/
def Conn.readSize (c : Conn) (want : Nat) : Nat :=
  min want (min c.data.length (max 1 (c.sizes.headD want)))

/-- The call `conn.Read(buf[:want])`: an error when the peer has closed with
nothing left, otherwise the next `nr` pending bytes. -/
def Conn.Read (c : Conn) (want : Nat) : Except ReadError (Bytes × Conn) :=
  match c.data with
  | [] => Except.error ReadError.EOF
  | _ :: _ =>
    let nr := c.readSize want
    Except.ok (c.data.take nr, { data := c.data.drop nr, sizes := c.sizes.tail })

/-- The loop of `readTtyMessage` with its local variables as arguments; the
first argument bounds the number of rounds. -/
def readTtyLoop : Nat → Nat → Nat → Nat → Bytes → Conn → Except ReadError (ttyMessage × Conn)
  | fuel, needRead, length, read, res, conn =>
    if read < needRead then
      match fuel with
      | 0 => Except.error ReadError.cutOff
      | fuel + 1 =>
        let want := if needRead - read > 512 then 512 else needRead - read
        match conn.Read want with
        | Except.error e => Except.error e
        | Except.ok (chunk, conn1) =>
          let res1 := res ++ chunk
          let read1 := read + chunk.length
          if length = 0 ∧ read1 ≥ 12 then
            let length1 := bigEndian ((res1.drop 8).take 4)
            if length1 > 12 then
              readTtyLoop fuel length1 length1 read1 res1 conn1
            else
              readTtyLoop fuel needRead length1 read1 res1 conn1
          else
            readTtyLoop fuel needRead length read1 res1 conn1
    else
      Except.ok ({ session := bigEndian (res.take 8), message := res.drop 12 }, conn)

/-- The frame reader; it also returns the connection after the reads.  Every
round that does not fail takes at least one pending byte, so one round more
than there are pending bytes is never used up. -/
def readTtyMessage (conn : Conn) : Except ReadError (ttyMessage × Conn) :=
  readTtyLoop (conn.data.length + 1) 12 0 0 [] conn

/-! ## Guest-agent TTY: sessions and the writer -/

structure TtyIO where
  Stdin : Option Nat
  Stdout : Option Nat
  ClientTag : String
  Callback : Option Nat
deriving DecidableEq, Repr

structure ttyAttachments where
  container : Int
  persistent : Bool
  attachments : List TtyIO
deriving DecidableEq, Repr

/-- The session map `pts.ttys` as an association list, and the messages
queued on `pts.channel`. -/
structure pseudoTtys where
  channel : List ttyMessage
  ttys : List (Nat × ttyAttachments)
deriving DecidableEq, Repr

/-- The write side of the tty socket: the bytes written so far and whether
the peer has gone (every `conn.Write` then fails). -/
structure WriteConn where
  sent : Bytes
  broken : Bool
deriving DecidableEq, Repr

/-- The writer goroutine over the messages queued on `ctx.ptys.channel` until
the channel is closed: for a known session it writes `msg.message`, and it
returns at the first write error. -/
def waitTtyMessage (ttys : List (Nat × ttyAttachments)) (conn : WriteConn) :
    List ttyMessage → WriteConn
  | [] => conn
  | msg :: rest =>
    match ttys.lookup msg.session with
    | some _ =>
      if conn.broken then conn
      else waitTtyMessage ttys { conn with sent := conn.sent ++ msg.message } rest
    | none => waitTtyMessage ttys conn rest

/-! ## Terminals: effects on subscribers -/

/-- What the terminal code does to the outside: closing the input or output
half of a subscriber, sending a response on its callback channel,
`ctx.clientDereg(tag)`, and a successful `Stdout.Write`.  Halves and callback
channels are named by their handles. -/
inductive TtyEffect where
  | closeStdin (h : Nat)
  | closeStdout (h : Nat)
  | callback (ch : Nat) (resp : QemuResponse)
  | clientDereg (tag : String)
  | write (h : Nat) (data : Bytes)
deriving DecidableEq, Repr

/-- Go maps as association lists: `delete(m, k)`. -/
def mapDelete {α : Type} (m : List (Nat × α)) (k : Nat) : List (Nat × α) :=
  m.filter (fun e => e.1 != k)

/-- Go maps as association lists: `m[k] = v`, and also the update of the value
a stored pointer refers to. -/
def mapSet {α : Type} (m : List (Nat × α)) (k : Nat) (v : α) : List (Nat × α) :=
  match m.lookup k with
  | some _ => m.map (fun e => if e.1 = k then (k, v) else e)
  | none => m ++ [(k, v)]

def newAttachments (idx : Int) (persist : Bool) : ttyAttachments :=
  { container := idx, persistent := persist, attachments := [] }

def newAttachmentsWithTty (idx : Int) (persist : Bool) ( tty : TtyIO) : ttyAttachments :=
  { container := idx, persistent := persist, attachments := [tty] }

def ttyAttachments.attach (ta : ttyAttachments) ( tty : TtyIO) : ttyAttachments :=
  { ta with attachments := ta.attachments ++ [tty] }

/-- The loop of `detach`: the attachments kept so far and the flag `detached`. -/
def detachLoop ( tty : TtyIO) (acc : List TtyIO × Bool) ( t : TtyIO) : List TtyIO × Bool :=
  if tty.ClientTag ≠ t.ClientTag then (acc.1 ++ [t], acc.2) else (acc.1, true)

def ttyAttachments.detach (ta : ttyAttachments) ( tty : TtyIO) : ttyAttachments :=
  let r := ta.attachments.foldl (detachLoop tty) ([], false)
  if r.2 then { ta with attachments := r.1 } else ta

/-- The method `Close` of a subscriber: the effects, and the tag it returns. -/
def TtyIO.Close ( tty : TtyIO) : List TtyEffect × String :=
  let e1 := match tty.Stdin with
    | some h => [TtyEffect.closeStdin h]
    | none => []
  let e2 := match tty.Stdout with
    | some h => [TtyEffect.closeStdout h]
    | none => []
  let e3 := match tty.Callback with
    | some ch => [TtyEffect.callback ch
        (QemuResponse.mk "" RespCode.E_EXEC_FINISH "Command finished" none)]
    | none => []
  (e1 ++ e2 ++ e3, tty.ClientTag)

/-- The result of `ttyAttachments.close`: the attachment set afterwards, the
tags returned, and the effects of the `Close` calls. -/
structure CloseResult where
  ta : ttyAttachments
  tags : List String
  effects : List TtyEffect
deriving DecidableEq, Repr

def ttyAttachments.close (ta : ttyAttachments) : CloseResult :=
  let r := ta.attachments.foldl
    (fun (acc : List String × List TtyEffect) t =>
      let c := TtyIO.Close t
      (acc.1 ++ [c.2], acc.2 ++ c.1))
    ([], [])
  { ta := { ta with attachments := [] }, tags := r.1, effects := r.2 }

def ttyAttachments.empty (ta : ttyAttachments) : Bool :=
  ta.attachments.length == 0

/-! ## Guest-agent TTY: closing and detaching -/

def pseudoTtys.Close (pts : pseudoTtys) (session : Nat) : pseudoTtys × List TtyEffect :=
  match pts.ttys.lookup session with
  | some ta =>
    let r := ta.close
    ({ pts with ttys := mapDelete pts.ttys session },
     r.effects ++ r.tags.map TtyEffect.clientDereg)
  | none => (pts, [])

def pseudoTtys.Detach (pts : pseudoTtys) (session : Nat) ( tty : TtyIO) :
    pseudoTtys × List TtyEffect :=
  match pts.ttys.lookup session with
  | some ta =>
    let ta1 := ta.detach tty
    let pts1 := { pts with ttys := mapSet pts.ttys session ta1 }
    let r := if !ta1.persistent && ta1.empty then pts1.Close session else (pts1, [])
    let c := TtyIO.Close tty
    (r.1, r.2 ++ c.1 ++ [TtyEffect.clientDereg c.2])
  | none => (pts, [])

/-- The result of `ptyConnect`: the session map afterwards and whether the
goroutine reading the subscriber's input was started. -/
def pseudoTtys.ptyConnect (pts : pseudoTtys) (container : Int) (session : Nat) ( tty : TtyIO) :
    pseudoTtys × Bool :=
  let ttys1 := match pts.ttys.lookup session with
    | some ta => mapSet pts.ttys session (ta.attach tty)
    | none => mapSet pts.ttys session (newAttachmentsWithTty container false tty)
  ({ pts with ttys := ttys1 }, tty.Stdin.isSome)

/-- One round of the output loop of `waitPts` for the attachment `tty`;
`writeFails h` tells whether writing to the output half `h` fails. -/
def waitPtsWrite (writeFails : Nat → Bool) (res : ttyMessage)
    (acc : pseudoTtys × List TtyEffect) ( tty : TtyIO) : pseudoTtys × List TtyEffect :=
  match tty.Stdout with
  | some h =>
    if writeFails h then
      let d := acc.1.Detach res.session tty
      (d.1, acc.2 ++ d.2)
    else (acc.1, acc.2 ++ [TtyEffect.write h res.message])
  | none => acc

/-- What `waitPts` does with one message read from the tty socket. -/
def waitPtsMessage (writeFails : Nat → Bool) (pts : pseudoTtys) (res : ttyMessage) :
    pseudoTtys × List TtyEffect :=
  match pts.ttys.lookup res.session with
  | some ta =>
    if res.message.length = 0 then pts.Close res.session
    else ta.attachments.foldl (waitPtsWrite writeFails res) (pts, [])
  | none => (pts, [])

/-! ## Serial TTY context -/

structure ttyContext where
  socketName : String
  vmConn : Nat
  subscribers : List (Nat × TtyIO)
deriving DecidableEq, Repr

/-- The method `closeTerm`; every effect is recorded with the attach id of the
subscriber it belongs to. -/
def ttyContext.closeTerm (tc : ttyContext) (attach_id : Nat) :
    ttyContext × List (Nat × TtyEffect) :=
  match tc.subscribers.lookup attach_id with
  | some tty =>
    let e1 := match tty.Stdin with
      | some h => [(attach_id, TtyEffect.closeStdin h)]
      | none => []
    let e2 := match tty.Stdout with
      | some h => [(attach_id, TtyEffect.closeStdout h)]
      | none => []
    let tc1 := { tc with subscribers := mapDelete tc.subscribers attach_id }
    let e3 := if tty.ClientTag ≠ "" then [(attach_id, TtyEffect.clientDereg tty.ClientTag)] else []
    let e4 := match tty.Callback with
      | some ch => [(attach_id, TtyEffect.callback ch
          (QemuResponse.mk "" RespCode.E_EXEC_FINISH "Command finished" (some attach_id)))]
      | none => []
    (tc1, e1 ++ e2 ++ e3 ++ e4)
  | none => (tc, [])

def ttyContext.hasAttachId (tc : ttyContext) (attach_id : Nat) : Bool :=
  tc.subscribers.any (fun e => e.1 == attach_id)

def ttyContext.findAndClose (tc : ttyContext) (attach_id : Nat) :
    (ttyContext × List (Nat × TtyEffect)) × Bool :=
  let found := tc.hasAttachId attach_id
  if found then (tc.closeTerm attach_id, found) else ((tc, []), found)

/-- The result of `connect`: the context afterwards, the error returned (`none`
for nil) and the attach ids for which an input reader goroutine was started. -/
structure ConnectResult where
  tc : ttyContext
  err : Option String
  readers : List Nat
deriving DecidableEq, Repr

def ttyContext.connect (tc : ttyContext) (attach_id : Nat) ( tty : TtyIO) : ConnectResult :=
  match tc.subscribers.lookup attach_id with
  | some _ => { tc := tc, err := some "repeat attach a same attach id", readers := [] }
  | none =>
    { tc := { tc with subscribers := mapSet tc.subscribers attach_id tty },
      err := none,
      readers := if tty.Stdin.isSome then [attach_id] else [] }

/-- A call of `closeTerm` or of `findAndClose`. -/
inductive CloseCall where
  | closeTerm (attach_id : Nat)
  | findAndClose (attach_id : Nat)
deriving DecidableEq, Repr

def CloseCall.id (c : CloseCall) : Nat :=
  match c with
  | CloseCall.closeTerm i => i
  | CloseCall.findAndClose i => i

def CloseCall.run (tc : ttyContext) (c : CloseCall) : ttyContext × List (Nat × TtyEffect) :=
  match c with
  | CloseCall.closeTerm i => tc.closeTerm i
  | CloseCall.findAndClose i => (tc.findAndClose i).1

/-- A sequence of `closeTerm` / `findAndClose` calls on a context, with the
effects of all of them in order. -/
def runCloseCalls (tc : ttyContext) (calls : List CloseCall) :
    ttyContext × List (Nat × TtyEffect) :=
  calls.foldl (fun acc c => let r := c.run acc.1; (r.1, acc.2 ++ r.2)) (tc, [])

/-- The effects recorded for the subscriber `attach_id`. -/
def effectsOf (attach_id : Nat) (log : List (Nat × TtyEffect)) : List TtyEffect :=
  (log.filter (fun e => e.1 == attach_id)).map Prod.snd

/-- The fan-out of `ttyReceive` for the byte number `k`: the writes that
succeeded and the attach ids whose write failed; `writeFails h k` tells
whether writing byte number `k` to the output half `h` fails. -/
def fanOut (writeFails : Nat → Nat → Bool) (k : Nat) (b : Nat) :
    List (Nat × TtyIO) → List (Nat × TtyEffect) × List Nat
  | [] => ([], [])
  | (aid, rd) :: rest =>
    let r := fanOut writeFails k b rest
    match rd.Stdout with
    | none => r
    | some h =>
      if writeFails h k then (r.1, aid :: r.2)
      else ((aid, TtyEffect.write h [b]) :: r.1, r.2)

/-- The calls `tc.closeTerm(ctx, aid)` for the ids collected in `closed`. -/
def closeAll (tc : ttyContext) (closed : List Nat) : ttyContext × List (Nat × TtyEffect) :=
  closed.foldl (fun acc aid => let r := acc.1.closeTerm aid; (r.1, acc.2 ++ r.2)) (tc, [])

/-- The reader loop `ttyReceive` over the bytes the hypervisor connection
delivers before its read fails, the first of them being byte number `k`. -/
def ttyReceive (writeFails : Nat → Nat → Bool) :
    Nat → Bytes → ttyContext → ttyContext × List (Nat × TtyEffect)
  | _, [], tc => (tc, [])
  | k, b :: rest, tc =>
    let f := fanOut writeFails k b tc.subscribers
    let c := if f.2.length > 0 then closeAll tc f.2 else (tc, [])
    let r := ttyReceive writeFails (k + 1) rest c.1
    (r.1, f.1 ++ c.2 ++ r.2)

/-! ## Line splitting of the console output -/

/-- The output channel of `ttyLiner`: the strings sent, and how often the
channel was closed. -/
structure LinerOutput where
  lines : List Bytes
  closed : Nat
deriving DecidableEq, Repr

/-- The loop of `ttyLiner` over the bytes read before the read fails, with the
local variables `line`, `cr` and `emit` as arguments. -/
def ttyLinerLoop : Bytes → Bytes → Bool → Bool → List Bytes → LinerOutput
  | [], _, _, _, out => { lines := out, closed := 1 }
  | b :: rest, line, cr, emit, out =>
    let s : Bytes × Bool × Bool :=
      if b = 10 then (line, false, !cr)
      else if b = 13 then (line, true, true)
      else (line ++ [b], false, emit)
    if s.2.2 then ttyLinerLoop rest [] s.2.1 false (out ++ [s.1])
    else ttyLinerLoop rest s.1 s.2.1 s.2.2 out

def ttyLiner (input : Bytes) : LinerOutput :=
  ttyLinerLoop input [] false false []

/-- The line splitting as the specification words it: `prev` is the byte
before, `seg` the segment collected so far.  A carriage return ends a segment,
a line feed ends one unless a carriage return comes right before it, every
other byte joins the segment, and what follows the last terminator is dropped. -/
def lineSegments : Option Nat → Bytes → Bytes → List Bytes
  | _, _, [] => []
  | prev, seg, b :: rest =>
    if b = 13 then seg :: lineSegments (some b) [] rest
    else if b = 10 then
      if prev = some 13 then lineSegments (some b) seg rest
      else seg :: lineSegments (some b) [] rest
    else lineSegments (some b) (seg ++ [b]) rest

/-- What closing a list of subscribers amounts to, as the specification lists
it: for each subscriber in turn the input half is closed when present, the
output half is closed when present, and the completion response
`E_EXEC_FINISH` / "Command finished" is sent on the callback channel when
present. -/
def closeEffects : List TtyIO → List TtyEffect
  | [] => []
  | t :: ts =>
    t.Stdin.toList.map TtyEffect.closeStdin ++
    t.Stdout.toList.map TtyEffect.closeStdout ++
    t.Callback.toList.map (fun ch => TtyEffect.callback ch
      (QemuResponse.mk "" RespCode.E_EXEC_FINISH "Command finished" none)) ++
    closeEffects ts

/-- Two subscribers with different tags, and a third that shares the tag of
the first. -/
def sampleTtyA : TtyIO :=
  { Stdin := some 1, Stdout := some 2, ClientTag := "a", Callback := some 3 }

def sampleTtyB : TtyIO :=
  { Stdin := some 4, Stdout := some 5, ClientTag := "b", Callback := none }

def sampleTtyA2 : TtyIO :=
  { Stdin := some 6, Stdout := some 7, ClientTag := "a", Callback := none }

/-- A session map with the single session 1, not persistent, to which the
given subscribers are attached. -/
def samplePts (attached : List TtyIO) : pseudoTtys :=
  { channel := [], ttys := [(1, { container := 0, persistent := false, attachments := attached })] }

/-- The effects `closeTerm` has on the subscriber `tty` attached under
`attach_id`, as the specification lists them: the input half and the output
half are closed when present, the tag is deregistered when it is not empty,
and the callback fires when present. -/
def removalEffects (attach_id : Nat) ( tty : TtyIO) : List TtyEffect :=
  tty.Stdin.toList.map TtyEffect.closeStdin ++
  tty.Stdout.toList.map TtyEffect.closeStdout ++
  (if tty.ClientTag ≠ "" then [TtyEffect.clientDereg tty.ClientTag] else []) ++
  tty.Callback.toList.map (fun ch => TtyEffect.callback ch
    (QemuResponse.mk "" RespCode.E_EXEC_FINISH "Command finished" (some attach_id)))

/-- A serial context with the subscribers "a" under id 0 and "b" under id 1. -/
def sampleTc : ttyContext :=
  { socketName := "/tmp/serial0.sock", vmConn := 0,
    subscribers := [(0, sampleTtyA), (1, sampleTtyB)] }

/-- The bookkeeping state after `stateInit` has recorded a readiness event,
at the point where it asks `deviceReady()`. -/
def bookkeeping (ops : DeviceOps δ) (d : δ) (ev : QemuEvent) : δ :=
  match ev with
  | QemuEvent.ContainerCreatedEvent info => (ops.containerCreated d info).1
  | QemuEvent.VolumeReadyEvent info => (ops.volumeReady d info).1
  | QemuEvent.BlockdevInsertedEvent info => ops.blockdevInserted d info
  | QemuEvent.NetDevInsertedEvent info => ops.netdevInserted d info
  | QemuEvent.SerialAddEvent info => ops.serialAttached d info
  | QemuEvent.TtyOpenEvent info => ops.ttyOpened d info
  | _ => d

/-- A bookkeeping like `countingOps` in which every container and every volume
needs a block device. -/
def blockOps : DeviceOps Nat :=
  { countingOps with
    containerCreated := fun d _ => (d, true)
    volumeReady := fun d _ => (d, true)
    nextScsiId := fun d => (d + 1, d) }

def sampleContainerCreated : QemuEvent :=
  QemuEvent.ContainerCreatedEvent
    { Index := 0, Id := "c0", Rootfs := "/rootfs", Image := "/dev/mapper/c0", Fstype := "ext4",
      Workdir := "/", Cmd := ["sh"], Envs := [] }

def sampleVolumeReady : QemuEvent :=
  QemuEvent.VolumeReadyEvent
    { Name := "vol0", Filepath := "/dev/mapper/vol0", Fstype := "ext4", Format := "raw" }

/-! ## Image and volume provisioner (`drive.go`) -/

/-- Modelled from the spec: the answer of the container runtime to `info`, as
read through `remoteInfo`: the storage driver, and the `DriverStatus` pairs
(`none` when the key does not exist, an error when `GetJson` fails). -/
structure RemoteInfo where
  Driver : String
  DriverStatus : Option (Except String (List (String × String)))

/-- Modelled from the spec: the container configuration returned by
`inspect` (`docker.ConfigJSON`). -/
structure ConfigJSON where
  Env : List String
  WorkingDir : String
  Cmd : List String

/-- The three steps of a query of the container runtime (`SendCmd...`,
`AddEnv`, `Write`): the step that fails with its error, or the decoded
answer. -/
inductive Reply (α : Type) where
  | sendFailed (err : String)
  | addEnvFailed (err : String)
  | writeFailed
  | ok (a : α)

/-- The calls `CreateContainer` makes outside the repository, each with the
arguments of the call; an `Option String` is the error returned, `none` for
nil.  `SendCmdCreate` and `RandStr` also take the position of the container
or volume in the pod spec. -/
structure Externals where
  SendCmdInfo : Reply RemoteInfo
  SendCmdCreate : Nat → String → Reply String
  GetContainerInfo : String → Except String ConfigJSON
  CreateNewDevice : String → String → String → Option String
  dmMountContainerToSharedDir : String → String → String → Except String String
  aufsMountContainerToSharedDir : String → String → String → Except String String
  dmAttachFiles : String → String → String → String → String → String → Option String
  aufsAttachFiles : String → String → String → String → String → Option String
  LookPath : String → Except String String
  Output : String → List String → Option String
  notExist : String → Bool
  MkdirAll : String → Option String
  RandStr : Nat → String
  Mount : String → String → String → Option String
  pathJoin : String → String → String

/-- How a call of `CreateContainer` ends: it returns its pair of results, or
it panics. -/
inductive Ending where
  | returned (id : String) (err : Option String)
  | panicked
deriving DecidableEq, Repr

/-- What a call of `CreateContainer` does: the events it posts on the hub, in
order, and how it ends. -/
structure Provisioned where
  events : List QemuEvent
  ending : Ending
deriving DecidableEq, Repr

/-- The value of `strings.Index` when the substring occurs. -/
def stringsIndex : List Char → List Char → Option Nat
  | [], sub => if sub.isEmpty then some 0 else none
  | c :: t, sub =>
    if sub.isPrefixOf (c :: t) then some 0 else (stringsIndex t sub).map (fun i => i + 1)

def stringsContains (s sub : String) : Bool :=
  (stringsIndex s.data sub.data).isSome

/-- The local variables of `CreateContainer` that the answer to `info` sets. -/
structure DriverSettings where
  storageDriver : String
  fstype : String
  poolName : String
  devPrefix : String
  rootPath : String
deriving DecidableEq, Repr

/-- The loop over the `DriverStatus` pairs: `acc` holds the value found for
`nameKey` ("Pool Name" or "Root Dir") and `fstype`; the loop ends at the pair
"Backing Filesystem". -/
def scanDriverStatus (nameKey : String) : List (String × String) → String × String → String × String
  | [], acc => acc
  | (k, v) :: rest, acc =>
    let acc1 := if k = nameKey then (v, acc.2) else acc
    if k = "Backing Filesystem" then
      (acc1.1,
       if stringsContains v "ext" then "ext4"
       else if stringsContains v "xfs" then "xfs"
       else "dir")
    else scanDriverStatus nameKey rest acc1

/-- The first part of `CreateContainer`, up to the choice of the driver
settings. -/
def queryDriver (ext : Externals) : Except Ending DriverSettings :=
  match ext.SendCmdInfo with
  | Reply.sendFailed e => Except.error (Ending.returned "" (some e))
  | Reply.addEnvFailed e => Except.error (Ending.returned "" (some e))
  | Reply.writeFailed =>
    Except.error (Ending.returned "" (some "Error while reading remote info!\n"))
  | Reply.ok info =>
    if info.Driver = "devicemapper" then
      match info.DriverStatus with
      | some (Except.error e) => Except.error (Ending.returned "" (some e))
      | st =>
        let r := match st with
          | some (Except.ok pairs) => scanDriverStatus "Pool Name" pairs ("", "")
          | _ => ("", "")
        match stringsIndex r.1.data "-pool".data with
        | none => Except.error Ending.panicked
        | some idx =>
          Except.ok { storageDriver := info.Driver, fstype := r.2, poolName := r.1,
                      devPrefix := String.mk (r.1.data.take idx),
                      rootPath := "/var/lib/docker/devicemapper" }
    else if info.Driver = "aufs" then
      match info.DriverStatus with
      | some (Except.error e) => Except.error (Ending.returned "" (some e))
      | st =>
        let r := match st with
          | some (Except.ok pairs) => scanDriverStatus "Root Dir" pairs ("", "")
          | _ => ("", "")
        Except.ok { storageDriver := info.Driver, fstype := r.2, poolName := "",
                    devPrefix := "", rootPath := r.1 }
    else
      Except.ok { storageDriver := info.Driver, fstype := "", poolName := "", devPrefix := "",
                  rootPath := "" }

/-- The lookup `files[name].Uri` in the map built from the `Files` section:
the last file of that name counts, and a missing file gives the empty string. -/
def fileUri (files : List UserFile) (name : String) : String :=
  match files.reverse.find? (fun f => f.Name == name) with
  | some f => f.Uri
  | none => ""

/-- The loop over the files of a container; the result is the error returned
by the first injection that fails. -/
def attachFiles (ext : Externals) (d : DriverSettings) (files : List UserFile)
    (containerId : String) : List UserFileReference → Option String
  | [] => none
  | f :: rest =>
    let fromFile := fileUri files f.Filename
    if fromFile = "" then attachFiles ext d files containerId rest
    else
      let e1 := if d.storageDriver = "devicemapper" then
          ext.dmAttachFiles containerId d.devPrefix fromFile f.Path d.rootPath f.Perm
        else none
      match e1 with
      | some e => some e
      | none =>
        let e2 := if d.storageDriver = "aufs" then
            ext.aufsAttachFiles containerId fromFile f.Path d.rootPath f.Perm
          else none
        match e2 with
        | some e => some e
        | none => attachFiles ext d files containerId rest

/-- The loop that splits the environment entries at "="; `none` stands for the
panic of slicing with the index -1. -/
def parseEnv : List String → List (String × String) → Option (List (String × String))
  | [], env => some env
  | v :: rest, env =>
    match stringsIndex v.data "=".data with
    | none => none
    | some idx =>
      let key := String.mk (v.data.take idx)
      let val := String.mk (v.data.drop (idx + 1))
      let env1 := if env.any (fun e => e.1 == key)
        then env.map (fun e => if e.1 == key then (key, val) else e)
        else env ++ [(key, val)]
      parseEnv rest env1

/-- One round of the loop over the containers: the value of `devFullName`
afterwards and the event posted, or the way the function ends. -/
def provisionContainer (ext : Externals) (d : DriverSettings) (files : List UserFile)
    (sharedDir : String) (i : Nat) (c : UserContainer) (devFullName : String) :
    Except Ending (String × ContainerCreatedEvent) :=
  match ext.SendCmdCreate i c.Image with
  | Reply.sendFailed e => Except.error (Ending.returned "" (some e))
  | Reply.addEnvFailed e => Except.error (Ending.returned "" (some e))
  | Reply.writeFailed =>
    Except.error (Ending.returned "" (some "Error while reading remote info!\n"))
  | Reply.ok containerId =>
    if containerId ≠ "" then
      match ext.GetContainerInfo containerId with
      | Except.error e => Except.error (Ending.returned "" (some e))
      | Except.ok jsonResponse =>
        let dm : Except Ending String :=
          if d.storageDriver = "devicemapper" then
            match ext.CreateNewDevice containerId d.devPrefix d.rootPath with
            | some e => Except.error (Ending.returned "" (some e))
            | none =>
              match ext.dmMountContainerToSharedDir containerId sharedDir d.devPrefix with
              | Except.error e => Except.error (Ending.returned "" (some e))
              | Except.ok name => Except.ok name
          else Except.ok devFullName
        match dm with
        | Except.error e => Except.error e
        | Except.ok dev1 =>
          let au : Except Ending String :=
            if d.storageDriver = "aufs" then
              match ext.aufsMountContainerToSharedDir containerId d.rootPath sharedDir with
              | Except.error e => Except.error (Ending.returned "" (some e))
              | Except.ok name => Except.ok name
            else Except.ok dev1
          match au with
          | Except.error e => Except.error e
          | Except.ok dev2 =>
            match attachFiles ext d files containerId c.Files with
            | some e => Except.error (Ending.returned "" (some e))
            | none =>
              match parseEnv jsonResponse.Env [] with
              | none => Except.error Ending.panicked
              | some env =>
                Except.ok (dev2,
                  { Index := i, Id := containerId, Rootfs := "/rootfs", Image := dev2,
                    Fstype := d.fstype, Workdir := jsonResponse.WorkingDir,
                    Cmd := jsonResponse.Cmd, Envs := env })
    else Except.error Ending.panicked

/-- The loop over the containers: the events posted, and the way the function
ends when it ends inside the loop. -/
def provisionContainers (ext : Externals) (d : DriverSettings) (files : List UserFile)
    (sharedDir : String) : Nat → List UserContainer → String → List QemuEvent × Option Ending
  | _, [], _ => ([], none)
  | i, c :: cs, devFullName =>
    match provisionContainer ext d files sharedDir i c devFullName with
    | Except.error e => ([], some e)
    | Except.ok r =>
      let rest := provisionContainers ext d files sharedDir (i + 1) cs r.1
      (QemuEvent.ContainerCreatedEvent r.2 :: rest.1, rest.2)

/-- One round of the loop over the volumes: the event posted, or the way the
function ends. -/
def provisionVolume (ext : Externals) (d : DriverSettings) (sharedDir : String) (k : Nat)
    (v : UserVolume) : Except Ending VolumeReadyEvent :=
  if v.Source = "" ∧ d.storageDriver = "devicemapper" then
    let volName := d.devPrefix ++ "-volume-" ++ "%!(EXTRA string=" ++ v.Name ++ ")"
    match ext.LookPath "dmsetup" with
    | Except.error _ => Except.error (Ending.returned "" none)
    | Except.ok vol =>
      let createvVolArgs := "create " ++ volName ++ " --table \"0 " ++
        toString (10737418240 / 512) ++ " thin " ++ d.poolName ++ " " ++ toString 100 ++ "\""
      match ext.Output vol [createvVolArgs] with
      | some e => Except.error (Ending.returned "" (some e))
      | none =>
        let found := if d.fstype = "ext4" then ext.LookPath "mkfs.ext4"
          else ext.LookPath "mkfs.xfs"
        let fscmd := match found with
          | Except.ok path => path
          | Except.error _ => ""
        match ext.Output fscmd [ext.pathJoin "/dev/mapper/" volName] with
        | some e => Except.error (Ending.returned "" (some e))
        | none =>
          Except.ok { Name := v.Name, Filepath := ext.pathJoin "/dev/mapper/" volName,
                      Fstype := d.fstype, Format := "raw" }
  else
    let source := if v.Source = "" then ext.pathJoin "/var/tmp/dvm/" v.Name else v.Source
    let made : Option String :=
      if v.Source = "" ∧ ext.notExist source then ext.MkdirAll source else none
    match made with
    | some _ => Except.error (Ending.returned "" none)
    | none =>
      let mountSharedDir := ext.RandStr k
      match ext.Mount source (ext.pathJoin sharedDir mountSharedDir) d.fstype with
      | some _ => Except.error (Ending.returned "" none)
      | none =>
        Except.ok { Name := v.Name, Filepath := mountSharedDir, Fstype := "dir", Format := "" }

/-- The loop over the volumes. -/
def provisionVolumes (ext : Externals) (d : DriverSettings) (sharedDir : String) :
    Nat → List UserVolume → List QemuEvent × Option Ending
  | _, [] => ([], none)
  | k, v :: vs =>
    match provisionVolume ext d sharedDir k v with
    | Except.error e => ([], some e)
    | Except.ok ev =>
      let rest := provisionVolumes ext d sharedDir (k + 1) vs
      (QemuEvent.VolumeReadyEvent ev :: rest.1, rest.2)

def CreateContainer (ext : Externals) (userPod : UserPod) (sharedDir : String) : Provisioned :=
  match queryDriver ext with
  | Except.error e => { events := [], ending := e }
  | Except.ok d =>
    let cs := provisionContainers ext d userPod.Files sharedDir 0 userPod.Containers ""
    match cs.2 with
    | some e => { events := cs.1, ending := e }
    | none =>
      let vs := provisionVolumes ext d sharedDir 0 userPod.Volumes
      match vs.2 with
      | some e => { events := cs.1 ++ vs.1, ending := e }
      | none => { events := cs.1 ++ vs.1, ending := Ending.returned "" none }

def isInitFailed (ev : QemuEvent) : Bool :=
  match ev with
  | QemuEvent.InitFailedEvent _ => true
  | _ => false

/-- A host on which every call succeeds: thin-pool storage on ext4, and the
container runtime answers every create with the id "c0". -/
def healthyHost : Externals where
  SendCmdInfo := Reply.ok
    { Driver := "devicemapper",
      DriverStatus := some (Except.ok
        [("Pool Name", "docker-8:1-pool"), ("Backing Filesystem", "extfs")]) }
  SendCmdCreate := fun _ _ => Reply.ok "c0"
  GetContainerInfo := fun _ => Except.ok { Env := ["PATH=/bin"], WorkingDir := "/", Cmd := ["sh"] }
  CreateNewDevice := fun _ _ _ => none
  dmMountContainerToSharedDir := fun id _ _ => Except.ok ("/dev/mapper/" ++ id)
  aufsMountContainerToSharedDir := fun id _ _ => Except.ok id
  dmAttachFiles := fun _ _ _ _ _ _ => none
  aufsAttachFiles := fun _ _ _ _ _ => none
  LookPath := fun name => Except.ok ("/sbin/" ++ name)
  Output := fun _ _ => none
  notExist := fun _ => false
  MkdirAll := fun _ => none
  RandStr := fun _ => "abcdefghij"
  Mount := fun _ _ _ => none
  pathJoin := fun a b => a ++ b

/-- A pod with one container and one volume that has no source. -/
def samplePod : UserPod :=
  { Containers := [{ Image := "busybox", Files := [] }], Files := [],
    Volumes := [{ Name := "data", Source := "" }] }

/-! ## Theorems: the state handlers -/

theorem foldl_keeps {α β : Type} (P : β → Prop) (f : β → α → β)
    (step : ∀ b a, P b → P (f b a)) (l : List α) (b : β) (hb : P b) : P (l.foldl f b) := by
  induction l generalizing b with
  | nil => simpa using hb
  | cons a l ih => exact ih (f b a) (step b a hb)

theorem quitCount_append (a b : List QmpSession) :
    quitCount (a ++ b) = quitCount a + quitCount b := by
  simp [quitCount]

theorem startPodCount_append (a b : List DecodedMessage) :
    startPodCount (a ++ b) = startPodCount a + startPodCount b := by
  simp [startPodCount]

theorem prepareDevice_keeps (ops : DeviceOps δ) (ctx : QemuContext δ) (spec : UserPod) :
    KeptByPrepare ctx (prepareDevice ops ctx spec) := by
  unfold prepareDevice
  apply foldl_keeps (KeptByPrepare ctx)
  · intro b a hb
    obtain ⟨h1, h2, h3, h4, h5, h6, h7, h8⟩ := hb
    refine ⟨h1, h2, h3, h4, h5, h6, h7, ?_⟩
    show quitCount (b.qmp ++ [_]) = _
    rw [quitCount_append, h8]
    simp [quitCount]
  · apply foldl_keeps (KeptByPrepare ctx)
    · intro b a hb
      exact hb
    · apply foldl_keeps (KeptByPrepare ctx)
      · intro b a hb
        exact hb
      · exact ⟨rfl, rfl, rfl, rfl, rfl, rfl, rfl, rfl⟩

theorem runPod_startPodCount_le (ops : DeviceOps δ) (ctx : QemuContext δ) :
    startPodCount (runPod ops ctx).vm ≤ startPodCount ctx.vm + 1 := by
  unfold runPod
  cases ops.marshalSpec ctx.dev <;> simp [startPodCount_append, startPodCount]

theorem runPodIfReady_startPodCount_le (ops : DeviceOps δ) (ctx : QemuContext δ) :
    startPodCount (runPodIfReady ops ctx).vm ≤ startPodCount ctx.vm + 1 := by
  unfold runPodIfReady
  split
  · exact runPod_startPodCount_le ops ctx
  · omega

theorem stateInit_startPodCount_le (ops : DeviceOps δ) (ctx : QemuContext δ) (ev : QemuEvent) :
    startPodCount (stateInit ops ctx ev).vm ≤
      startPodCount ctx.vm + (if isReadinessEvent ev then 1 else 0) := by
  cases ev with
  | RunPodCommand spec =>
    have h := (prepareDevice_keeps ops ctx spec).2.1
    simp [stateInit, commonStateHandler, isReadinessEvent, h]
  | ContainerCreatedEvent info =>
    simp only [stateInit, commonStateHandler, isReadinessEvent]
    split
    · simp
    · split
      · simp
      · simpa using runPodIfReady_startPodCount_le ops _
  | VolumeReadyEvent info =>
    simp only [stateInit, commonStateHandler, isReadinessEvent]
    split
    · simp
    · split
      · simp
      · simpa using runPodIfReady_startPodCount_le ops _
  | BlockdevInsertedEvent info =>
    simpa [stateInit, commonStateHandler, isReadinessEvent]
      using runPodIfReady_startPodCount_le ops _
  | NetDevInsertedEvent info =>
    simpa [stateInit, commonStateHandler, isReadinessEvent]
      using runPodIfReady_startPodCount_le ops _
  | SerialAddEvent info =>
    simpa [stateInit, commonStateHandler, isReadinessEvent]
      using runPodIfReady_startPodCount_le ops _
  | TtyOpenEvent info =>
    simpa [stateInit, commonStateHandler, isReadinessEvent]
      using runPodIfReady_startPodCount_le ops _
  | InitConnectedEvent conn =>
    cases conn <;> simp [stateInit, commonStateHandler, isReadinessEvent]
  | CommandAck reply msg =>
    by_cases h : reply = INIT_STARTPOD <;>
      simp [stateInit, commonStateHandler, isReadinessEvent, h, QemuContext.Become]
  | InterfaceCreated info =>
    by_cases h : info.IpAddr = "" <;>
      simp [stateInit, commonStateHandler, isReadinessEvent, h]
  | QmpEvent ty =>
    by_cases h : ty = QMP_EVENT_SHUTDOWN <;>
      simp [stateInit, commonStateHandler, isReadinessEvent, h, onQemuExit, QemuContext.Become]
  | ShutdownCommand =>
    simp [stateInit, commonStateHandler, isReadinessEvent, QemuContext.Become,
      startPodCount_append, startPodCount, INIT_SHUTDOWN, INIT_STARTPOD]
  | _ =>
    simp [stateInit, commonStateHandler, isReadinessEvent, onQemuExit, QemuContext.Become,
      QemuContext.Close]

theorem runPod_frame (ops : DeviceOps δ) (ctx : QemuContext δ) :
    (runPod ops ctx).handler = ctx.handler ∧ (runPod ops ctx).qmp = ctx.qmp ∧
    (runPod ops ctx).watchdogs = ctx.watchdogs ∧ (runPod ops ctx).client = ctx.client := by
  unfold runPod
  cases ops.marshalSpec ctx.dev <;> simp

theorem runPodIfReady_frame (ops : DeviceOps δ) (ctx : QemuContext δ) :
    (runPodIfReady ops ctx).handler = ctx.handler ∧ (runPodIfReady ops ctx).qmp = ctx.qmp ∧
    (runPodIfReady ops ctx).watchdogs = ctx.watchdogs ∧
    (runPodIfReady ops ctx).client = ctx.client := by
  unfold runPodIfReady
  split
  · exact runPod_frame ops ctx
  · simp

/-- C1 (amended): `runPod` has no latch. Every call of `runPod` whose spec
serialises writes one START_POD, a single event handled by `stateInit` writes
at most one, and over any sequence of events handled by `stateInit` the number
of START_POD messages written to `ctx.vm` is at most the number of readiness
events (ContainerCreated, VolumeReady, BlockInserted, NetDevInserted,
SerialAdded, TtyOpened) in the sequence. -/
theorem startPod_bounded_by_readiness_events (ops : DeviceOps δ) (ctx : QemuContext δ)
    (evs : List QemuEvent) :
    startPodCount (evs.foldl (stateInit ops) ctx).vm ≤
        startPodCount ctx.vm + (evs.filter isReadinessEvent).length ∧
    (∀ ev, startPodCount (stateInit ops ctx ev).vm ≤ startPodCount ctx.vm + 1) ∧
    startPodCount (runPod ops ctx).vm =
        startPodCount ctx.vm + (if (ops.marshalSpec ctx.dev).isSome then 1 else 0) := by
  refine ⟨?_, ?_, ?_⟩
  · induction evs generalizing ctx with
    | nil => simp
    | cons ev evs ih =>
      have h1 := ih (stateInit ops ctx ev)
      have h2 := stateInit_startPodCount_le ops ctx ev
      simp only [List.foldl_cons]
      cases hr : isReadinessEvent ev
      · simp [hr] at h2
        simp only [List.filter_cons, hr]
        simp only [Bool.false_eq_true, if_false]
        omega
      · simp [hr] at h2
        simp only [List.filter_cons, hr, if_true, List.length_cons]
        omega
  · intro ev
    have h := stateInit_startPodCount_le ops ctx ev
    split at h <;> omega
  · unfold runPod
    cases ops.marshalSpec ctx.dev <;> simp [startPodCount_append, startPodCount]

/-- C1 (counterexample): with a bookkeeping that reports the devices ready
after each of two BlockInserted events, `stateInit` writes two START_POD
messages, and a second call of `runPod` on the same context writes a second
message. -/
theorem startPod_twice_counterexample :
    ¬ (startPodCount ([sampleBlockInserted, sampleBlockInserted].foldl
          (stateInit countingOps) (freshContext Handler.init 1)).vm ≤ 1) ∧
    (runPod countingOps (runPod countingOps (freshContext Handler.init 0))).vm ≠
      (runPod countingOps (freshContext Handler.init 0)).vm := by
  decide

/-- C2 (the code at the failing input): from `stateRunning` the events
ShutdownCommand, CommandAck(INIT_SHUTDOWN), QemuExitEvent leave the handler at
`stateCleaningUp` with no response sent on `ctx.client`; the context has been
closed once and no session was submitted on `ctx.qmp`.  Only a further
QemuExitEvent makes `stateCleaningUp` send the terminal response. -/
theorem shutdown_scenario_sends_no_response (ops : DeviceOps δ) (ctx : QemuContext δ)
    (msg : Bytes) (m m2 : String) :
    (QemuLoop ops { ctx with handler := some Handler.running }
      [QemuEvent.ShutdownCommand, QemuEvent.CommandAck INIT_SHUTDOWN msg,
       QemuEvent.QemuExitEvent m]).client = ctx.client ∧
    (QemuLoop ops { ctx with handler := some Handler.running }
      [QemuEvent.ShutdownCommand, QemuEvent.CommandAck INIT_SHUTDOWN msg,
       QemuEvent.QemuExitEvent m]).handler = some Handler.cleaningUp ∧
    (QemuLoop ops { ctx with handler := some Handler.running }
      [QemuEvent.ShutdownCommand, QemuEvent.CommandAck INIT_SHUTDOWN msg,
       QemuEvent.QemuExitEvent m]).qmp = ctx.qmp ∧
    (QemuLoop ops { ctx with handler := some Handler.running }
      [QemuEvent.ShutdownCommand, QemuEvent.CommandAck INIT_SHUTDOWN msg,
       QemuEvent.QemuExitEvent m]).closeCalls = ctx.closeCalls + 1 ∧
    (QemuLoop ops { ctx with handler := some Handler.running }
      [QemuEvent.ShutdownCommand, QemuEvent.CommandAck INIT_SHUTDOWN msg,
       QemuEvent.QemuExitEvent m, QemuEvent.QemuExitEvent m2]).client =
      ctx.client ++ [QemuResponse.mk ctx.id RespCode.E_SHUTDOWM "qemu shut down" none] := by
  simp [QemuLoop, dispatch, Handler.run, stateRunning, stateTerminating, stateCleaningUp,
    commonStateHandler, onQemuExit, QemuContext.Become, QemuContext.Close]

/-- C3: `commonStateHandler` implements the common-handler table. QemuExitEvent
sets the handler to `stateCleaningUp` and closes the context; a QmpEvent of
type QMP_EVENT_SHUTDOWN sets the handler to `stateCleaningUp`; ShutdownCommand
writes one `DecodedMessage` with code INIT_SHUTDOWN and empty payload to
`ctx.vm`, arms the 3-second watchdog and sets the handler to
`stateTerminating`; each returns true, and `stateInit`, `stateRunning` and
`stateTerminating` then do nothing more. Every other event returns false with
the context unchanged. -/
theorem commonStateHandler_table (ops : DeviceOps δ) (ctx : QemuContext δ) :
    (∀ m, commonStateHandler ctx (QemuEvent.QemuExitEvent m) =
      ({ ctx with handler := some Handler.cleaningUp, closeCalls := ctx.closeCalls + 1 }, true)) ∧
    commonStateHandler ctx (QemuEvent.QmpEvent QMP_EVENT_SHUTDOWN) =
      ({ ctx with handler := some Handler.cleaningUp }, true) ∧
    commonStateHandler ctx QemuEvent.ShutdownCommand =
      ({ ctx with vm := ctx.vm ++ [DecodedMessage.mk INIT_SHUTDOWN []],
                  watchdogs := ctx.watchdogs ++ [3],
                  handler := some Handler.terminating }, true) ∧
    (∀ ev, isCommonEvent ev = false → commonStateHandler ctx ev = (ctx, false)) ∧
    (∀ ev, isCommonEvent ev = true →
      (commonStateHandler ctx ev).2 = true ∧
      stateInit ops ctx ev = (commonStateHandler ctx ev).1 ∧
      stateRunning ops ctx ev = (commonStateHandler ctx ev).1 ∧
      stateTerminating ctx ev = (commonStateHandler ctx ev).1) := by
  refine ⟨?_, ?_, ?_, ?_, ?_⟩
  · intro m
    simp [commonStateHandler, onQemuExit, QemuContext.Become, QemuContext.Close]
  · simp [commonStateHandler, onQemuExit, QemuContext.Become]
  · simp [commonStateHandler, QemuContext.Become]
  · intro ev hev
    cases ev <;> simp_all [commonStateHandler, isCommonEvent]
  · intro ev hev
    cases ev <;>
      simp_all [commonStateHandler, isCommonEvent, stateInit, stateRunning, stateTerminating]

/-- The common-handler table on a QemuTimeout in `stateRunning` and on a
ShutdownCommand in `stateTerminating`. -/
theorem commonStateHandler_table_witness :
    commonStateHandler (freshContext Handler.running 0) QemuEvent.QemuTimeout =
      (freshContext Handler.running 0, false) ∧
    stateTerminating (freshContext Handler.terminating 0) QemuEvent.ShutdownCommand =
      (commonStateHandler (freshContext Handler.terminating 0) QemuEvent.ShutdownCommand).1 :=
  ⟨(commonStateHandler_table countingOps (freshContext Handler.running 0)).2.2.2.1
      QemuEvent.QemuTimeout (by decide),
   ((commonStateHandler_table countingOps (freshContext Handler.terminating 0)).2.2.2.2
      QemuEvent.ShutdownCommand (by decide)).2.2.2⟩

/-- C5: in `stateInit`, a CommandAck whose reply code is INIT_STARTPOD sends
one client response with VmId `ctx.id`, code E_OK and cause "Start POD success"
and makes `stateRunning` the handler; a CommandAck with any other reply code
leaves the whole context as it was (no client response, nothing on `ctx.vm`
or `ctx.qmp`, handler still `stateInit`). -/
theorem stateInit_commandAck (ops : DeviceOps δ) (ctx : QemuContext δ) (reply : Nat)
    (msg : Bytes) (hh : ctx.handler = some Handler.init) :
    (reply = INIT_STARTPOD →
      dispatch ops ctx (QemuEvent.CommandAck reply msg) =
        { ctx with client := ctx.client ++
                     [QemuResponse.mk ctx.id RespCode.E_OK "Start POD success" none],
                   handler := some Handler.running }) ∧
    (reply ≠ INIT_STARTPOD →
      dispatch ops ctx (QemuEvent.CommandAck reply msg) = ctx ∧
      (dispatch ops ctx (QemuEvent.CommandAck reply msg)).handler = some Handler.init) := by
  constructor
  · intro hr
    simp [dispatch, hh, Handler.run, stateInit, commonStateHandler, hr, QemuContext.Become]
  · intro hr
    simp [dispatch, hh, Handler.run, stateInit, commonStateHandler, hr]

/-- The acknowledgement of START_POD and of EXEC_CMD in `stateInit` over the
counting bookkeeping. -/
theorem stateInit_commandAck_witness :
    dispatch countingOps (freshContext Handler.init 1) (QemuEvent.CommandAck 1 [111, 107]) =
      { freshContext Handler.init 1 with
          client := (freshContext Handler.init 1).client ++
            [QemuResponse.mk (freshContext Handler.init 1).id RespCode.E_OK
              "Start POD success" none],
          handler := some Handler.running } ∧
    (dispatch countingOps (freshContext Handler.init 1) (QemuEvent.CommandAck 2 []) =
        freshContext Handler.init 1 ∧
      (dispatch countingOps (freshContext Handler.init 1) (QemuEvent.CommandAck 2 [])).handler =
        some Handler.init) :=
  ⟨(stateInit_commandAck countingOps (freshContext Handler.init 1) 1 [111, 107] rfl).1 rfl,
   (stateInit_commandAck countingOps (freshContext Handler.init 1) 2 [] rfl).2 (by decide)⟩

/-- C6: in `stateInit`, an InterfaceCreated event with an empty IpAddr sends
one client response with code E_DEVICE_FAIL and cause
"network interface <Index> creation fail" and changes nothing else (no
network-add session, no START_POD, bookkeeping untouched, handler still
`stateInit`); with a non-empty IpAddr the bookkeeping `interfaceCreated` runs,
one network-add session is submitted on `ctx.qmp` and no client response is
sent. -/
theorem stateInit_interfaceCreated (ops : DeviceOps δ) (ctx : QemuContext δ)
    (info : InterfaceCreated) (hh : ctx.handler = some Handler.init) :
    (info.IpAddr = "" →
      dispatch ops ctx (QemuEvent.InterfaceCreated info) =
        { ctx with client := ctx.client ++
            [QemuResponse.mk ctx.id RespCode.E_DEVICE_FAIL
              ("network interface " ++ toString info.Index ++ " creation fail") none] }) ∧
    (info.IpAddr ≠ "" →
      dispatch ops ctx (QemuEvent.InterfaceCreated info) =
        { ctx with dev := ops.interfaceCreated ctx.dev info,
                   qmp := ctx.qmp ++ [QmpSession.networkAdd info.Fd info.DeviceName
                                        info.Index info.PCIAddr] }) := by
  constructor
  · intro hr
    simp [dispatch, hh, Handler.run, stateInit, commonStateHandler, hr]
  · intro hr
    simp [dispatch, hh, Handler.run, stateInit, commonStateHandler, hr]

/-- A failed and a successful interface 0 in `stateInit` over the counting
bookkeeping. -/
theorem stateInit_interfaceCreated_witness :
    (dispatch countingOps (freshContext Handler.init 3) (sampleInterface 0 "")).client =
      [QemuResponse.mk "vm-0" RespCode.E_DEVICE_FAIL "network interface 0 creation fail" none] ∧
    (dispatch countingOps (freshContext Handler.init 3) (sampleInterface 0 "10.0.0.2")).qmp =
      [QmpSession.networkAdd 7 "eth0" 0 5] := by
  have h1 := (stateInit_interfaceCreated countingOps (freshContext Handler.init 3)
    { Index := 0, PCIAddr := 5, Fd := 7, DeviceName := "eth0", IpAddr := "",
      NetMask := "255.255.255.0", RouteTable := [] } rfl).1 rfl
  have h2 := (stateInit_interfaceCreated countingOps (freshContext Handler.init 3)
    { Index := 0, PCIAddr := 5, Fd := 7, DeviceName := "eth0", IpAddr := "10.0.0.2",
      NetMask := "255.255.255.0", RouteTable := [] } rfl).2 (by decide)
  constructor
  · rw [sampleInterface, h1]
    rfl
  · rw [sampleInterface, h2]
    rfl

theorem stateInit_handler (ops : DeviceOps δ) (ctx : QemuContext δ) (ev : QemuEvent) :
    (stateInit ops ctx ev).handler = ctx.handler ∨
      ∃ h, (stateInit ops ctx ev).handler = some h := by
  cases ev with
  | RunPodCommand spec =>
    left
    simpa [stateInit, commonStateHandler] using (prepareDevice_keeps ops ctx spec).1
  | ContainerCreatedEvent info =>
    left
    simp only [stateInit, commonStateHandler]
    split
    · simp
    · split
      · simp
      · simpa using (runPodIfReady_frame ops _).1
  | VolumeReadyEvent info =>
    left
    simp only [stateInit, commonStateHandler]
    split
    · simp
    · split
      · simp
      · simpa using (runPodIfReady_frame ops _).1
  | BlockdevInsertedEvent info =>
    left
    simpa [stateInit, commonStateHandler] using (runPodIfReady_frame ops _).1
  | NetDevInsertedEvent info =>
    left
    simpa [stateInit, commonStateHandler] using (runPodIfReady_frame ops _).1
  | SerialAddEvent info =>
    left
    simpa [stateInit, commonStateHandler] using (runPodIfReady_frame ops _).1
  | TtyOpenEvent info =>
    left
    simpa [stateInit, commonStateHandler] using (runPodIfReady_frame ops _).1
  | InitConnectedEvent conn =>
    cases conn <;> simp [stateInit, commonStateHandler]
  | CommandAck reply msg =>
    by_cases h : reply = INIT_STARTPOD <;>
      simp [stateInit, commonStateHandler, h, QemuContext.Become]
  | InterfaceCreated info =>
    by_cases h : info.IpAddr = "" <;> simp [stateInit, commonStateHandler, h]
  | QmpEvent ty =>
    by_cases h : ty = QMP_EVENT_SHUTDOWN <;>
      simp [stateInit, commonStateHandler, h, onQemuExit, QemuContext.Become]
  | _ =>
    simp [stateInit, commonStateHandler, onQemuExit, QemuContext.Become, QemuContext.Close]

theorem stateRunning_handler (ops : DeviceOps δ) (ctx : QemuContext δ) (ev : QemuEvent) :
    (stateRunning ops ctx ev).handler = ctx.handler ∨
      ∃ h, (stateRunning ops ctx ev).handler = some h := by
  cases ev with
  | ExecCommand cmd =>
    left
    simp only [stateRunning, commonStateHandler]
    cases ops.marshalExec cmd <;> simp
  | AttachCommand container callback =>
    left
    simp only [stateRunning, commonStateHandler]
    split
    · simp
    · split
      · simp
      · split <;> simp
  | DetachCommand container tty =>
    left
    simp only [stateRunning, commonStateHandler]
    split
    · simp
    · split
      · simp
      · split <;> simp
  | QmpEvent ty =>
    by_cases h : ty = QMP_EVENT_SHUTDOWN <;>
      simp [stateRunning, commonStateHandler, h, onQemuExit, QemuContext.Become]
  | _ =>
    simp [stateRunning, commonStateHandler, onQemuExit, QemuContext.Become, QemuContext.Close]

theorem stateTerminating_handler (ctx : QemuContext δ) (ev : QemuEvent) :
    (stateTerminating ctx ev).handler = ctx.handler ∨
      ∃ h, (stateTerminating ctx ev).handler = some h := by
  cases ev with
  | QmpEvent ty =>
    by_cases h : ty = QMP_EVENT_SHUTDOWN <;>
      simp [stateTerminating, commonStateHandler, h, onQemuExit, QemuContext.Become]
  | _ =>
    simp [stateTerminating, commonStateHandler, onQemuExit, QemuContext.Become,
      QemuContext.Close]

/-- C7: in `stateCleaningUp`, a QemuExitEvent closes the context, clears the
handler pointer and sends one client response with code E_SHUTDOWM and cause
"qemu shut down"; every other event leaves the whole context as it was. A
handler pointer that is not nil becomes nil only when `stateCleaningUp`
processes a QemuExitEvent, and with a nil handler the loop of `QemuLoop` does
nothing more. -/
theorem stateCleaningUp_spec (ops : DeviceOps δ) (ctx : QemuContext δ) (ev : QemuEvent) :
    (∀ m, stateCleaningUp ctx (QemuEvent.QemuExitEvent m) =
      { ctx with closeCalls := ctx.closeCalls + 1, handler := none,
                 client := ctx.client ++
                   [QemuResponse.mk ctx.id RespCode.E_SHUTDOWM "qemu shut down" none] }) ∧
    (isQemuExit ev = false → stateCleaningUp ctx ev = ctx) ∧
    (ctx.handler ≠ none → (dispatch ops ctx ev).handler = none →
      ctx.handler = some Handler.cleaningUp ∧ isQemuExit ev = true) ∧
    (ctx.handler = none → ∀ evs, QemuLoop ops ctx evs = ctx) := by
  refine ⟨?_, ?_, ?_, ?_⟩
  · intro m
    simp [stateCleaningUp, QemuContext.Become, QemuContext.Close]
  · intro hev
    cases ev <;> simp_all [stateCleaningUp, isQemuExit]
  · intro hne hnil
    cases hh : ctx.handler with
    | none => exact absurd hh hne
    | some h =>
      have key : ∀ c : QemuContext δ, (c.handler = ctx.handler ∨ ∃ h2, c.handler = some h2) →
          c.handler ≠ none := by
        intro c hc
        rcases hc with hc | ⟨h2, hc⟩
        · rw [hc]
          exact hne
        · rw [hc]
          simp
      simp only [dispatch, hh] at hnil
      cases h with
      | init => exact absurd hnil (key _ (stateInit_handler ops ctx ev))
      | running => exact absurd hnil (key _ (stateRunning_handler ops ctx ev))
      | terminating => exact absurd hnil (key _ (stateTerminating_handler ctx ev))
      | cleaningUp =>
        refine ⟨rfl, ?_⟩
        cases ev <;> simp_all [Handler.run, stateCleaningUp, isQemuExit]
  · intro hnil evs
    induction evs with
    | nil => rfl
    | cons e es ih =>
      have hd : dispatch ops ctx e = ctx := by simp [dispatch, hnil]
      simpa [QemuLoop, hd] using ih

/-- A ShutdownCommand and a QemuExitEvent in `stateCleaningUp`, and the loop
with a nil handler. -/
theorem stateCleaningUp_spec_witness :
    stateCleaningUp (freshContext Handler.cleaningUp 0) QemuEvent.ShutdownCommand =
      freshContext Handler.cleaningUp 0 ∧
    ((freshContext Handler.cleaningUp 0).handler = some Handler.cleaningUp ∧
      isQemuExit (QemuEvent.QemuExitEvent "qemu exit with 0") = true) ∧
    QemuLoop countingOps { freshContext Handler.init 0 with handler := none }
        [QemuEvent.QemuTimeout] = { freshContext Handler.init 0 with handler := none } :=
  ⟨(stateCleaningUp_spec countingOps (freshContext Handler.cleaningUp 0)
      QemuEvent.ShutdownCommand).2.1 (by decide),
   (stateCleaningUp_spec countingOps (freshContext Handler.cleaningUp 0)
      (QemuEvent.QemuExitEvent "qemu exit with 0")).2.2.1 (by decide) (by decide),
   (stateCleaningUp_spec countingOps { freshContext Handler.init 0 with handler := none }
      QemuEvent.QemuTimeout).2.2.2 rfl [QemuEvent.QemuTimeout]⟩

/-- C8 (the code at the failing input): in `stateInit`, an InitConnectedEvent
whose conn is nil leaves the whole context as it was, so nothing is posted on
the bus and no reader is launched; a non-nil conn launches the agent reader
`waitCmdToInit` and changes nothing else. -/
theorem stateInit_initConnected (ops : DeviceOps δ) (ctx : QemuContext δ) (c : Nat) :
    stateInit ops ctx (QemuEvent.InitConnectedEvent none) = ctx ∧
    (stateInit ops ctx (QemuEvent.InitConnectedEvent none)).hub = ctx.hub ∧
    stateInit ops ctx (QemuEvent.InitConnectedEvent (some c)) =
      { ctx with spawned := ctx.spawned ++ [Spawned.waitCmdToInit c] } := by
  simp [stateInit, commonStateHandler]

/-! ## Theorems: watchdogs and forced quit -/

theorem runBound_of_eq (ctx c : QemuContext δ) (ev : QemuEvent)
    (hq : quitCount c.qmp = quitCount ctx.qmp) (hw : c.watchdogs = ctx.watchdogs) :
    RunBound ctx ev c := by
  refine ⟨?_, ?_, ?_⟩
  · rw [hq]
    omega
  · rw [hw]
  · rw [hw]
    omega

theorem runBound_runPodIfReady (ops : DeviceOps δ) (ctx c : QemuContext δ) (ev : QemuEvent)
    (hq : c.qmp = ctx.qmp) (hw : c.watchdogs = ctx.watchdogs) :
    RunBound ctx ev (runPodIfReady ops c) := by
  apply runBound_of_eq
  · rw [(runPodIfReady_frame ops c).2.1, hq]
  · rw [(runPodIfReady_frame ops c).2.2.1, hw]

theorem stateInit_runBound (ops : DeviceOps δ) (ctx : QemuContext δ) (ev : QemuEvent) :
    RunBound ctx ev (stateInit ops ctx ev) := by
  cases ev with
  | RunPodCommand spec =>
    have h := prepareDevice_keeps ops ctx spec
    apply runBound_of_eq
    · simpa [stateInit, commonStateHandler] using h.2.2.2.2.2.2.2
    · simpa [stateInit, commonStateHandler] using h.2.2.2.2.1
  | ContainerCreatedEvent info =>
    simp only [stateInit, commonStateHandler]
    split
    · simp at *
    · split
      · apply runBound_of_eq <;> simp [quitCount_append, quitCount]
      · exact runBound_runPodIfReady ops ctx _ _ rfl rfl
  | VolumeReadyEvent info =>
    simp only [stateInit, commonStateHandler]
    split
    · simp at *
    · split
      · apply runBound_of_eq <;> simp [quitCount_append, quitCount]
      · exact runBound_runPodIfReady ops ctx _ _ rfl rfl
  | BlockdevInsertedEvent info =>
    simpa [stateInit, commonStateHandler] using
      runBound_runPodIfReady ops ctx { ctx with dev := ops.blockdevInserted ctx.dev info }
        (QemuEvent.BlockdevInsertedEvent info) rfl rfl
  | NetDevInsertedEvent info =>
    simpa [stateInit, commonStateHandler] using
      runBound_runPodIfReady ops ctx { ctx with dev := ops.netdevInserted ctx.dev info }
        (QemuEvent.NetDevInsertedEvent info) rfl rfl
  | SerialAddEvent info =>
    simpa [stateInit, commonStateHandler] using
      runBound_runPodIfReady ops ctx { ctx with dev := ops.serialAttached ctx.dev info }
        (QemuEvent.SerialAddEvent info) rfl rfl
  | TtyOpenEvent info =>
    simpa [stateInit, commonStateHandler] using
      runBound_runPodIfReady ops ctx { ctx with dev := ops.ttyOpened ctx.dev info }
        (QemuEvent.TtyOpenEvent info) rfl rfl
  | InitConnectedEvent conn =>
    cases conn <;> simp [stateInit, commonStateHandler, RunBound]
  | CommandAck reply msg =>
    by_cases h : reply = INIT_STARTPOD <;>
      simp [stateInit, commonStateHandler, h, QemuContext.Become, RunBound]
  | InterfaceCreated info =>
    by_cases h : info.IpAddr = "" <;>
      simp [stateInit, commonStateHandler, h, RunBound, quitCount_append, quitCount]
  | QmpEvent ty =>
    by_cases h : ty = QMP_EVENT_SHUTDOWN <;>
      simp [stateInit, commonStateHandler, h, onQemuExit, QemuContext.Become, RunBound]
  | _ =>
    simp [stateInit, commonStateHandler, onQemuExit, QemuContext.Become, QemuContext.Close,
      RunBound]

theorem stateRunning_runBound (ops : DeviceOps δ) (ctx : QemuContext δ) (ev : QemuEvent) :
    RunBound ctx ev (stateRunning ops ctx ev) := by
  cases ev with
  | ExecCommand cmd =>
    simp only [stateRunning, commonStateHandler]
    cases ops.marshalExec cmd <;> simp [RunBound]
  | AttachCommand container callback =>
    simp only [stateRunning, commonStateHandler]
    split
    · simp at *
    · split
      · simp [RunBound]
      · split <;> simp [RunBound]
  | DetachCommand container tty =>
    simp only [stateRunning, commonStateHandler]
    split
    · simp at *
    · split
      · simp [RunBound]
      · split <;> simp [RunBound]
  | QmpEvent ty =>
    by_cases h : ty = QMP_EVENT_SHUTDOWN <;>
      simp [stateRunning, commonStateHandler, h, onQemuExit, QemuContext.Become, RunBound]
  | _ =>
    simp [stateRunning, commonStateHandler, onQemuExit, QemuContext.Become, QemuContext.Close,
      RunBound]

theorem stateTerminating_runBound (ctx : QemuContext δ) (ev : QemuEvent) :
    RunBound ctx ev (stateTerminating ctx ev) := by
  cases ev with
  | QmpEvent ty =>
    by_cases h : ty = QMP_EVENT_SHUTDOWN <;>
      simp [stateTerminating, commonStateHandler, h, onQemuExit, QemuContext.Become, RunBound]
  | _ =>
    simp [stateTerminating, commonStateHandler, onQemuExit, QemuContext.Become,
      QemuContext.Close, RunBound, quitCount_append, quitCount]

theorem stateCleaningUp_runBound (ctx : QemuContext δ) (ev : QemuEvent) :
    RunBound ctx ev (stateCleaningUp ctx ev) := by
  cases ev <;> simp [stateCleaningUp, QemuContext.Become, QemuContext.Close, RunBound]

theorem run_runBound (ops : DeviceOps δ) (h : Handler) (ctx : QemuContext δ) (ev : QemuEvent) :
    RunBound ctx ev (h.run ops ctx ev) := by
  cases h with
  | init => exact stateInit_runBound ops ctx ev
  | running => exact stateRunning_runBound ops ctx ev
  | terminating => exact stateTerminating_runBound ctx ev
  | cleaningUp => exact stateCleaningUp_runBound ctx ev

theorem timeoutCount_append (a b : List QemuEvent) :
    timeoutCount (a ++ b) = timeoutCount a + timeoutCount b := by
  simp [timeoutCount]

theorem shutdownCount_append (a b : List QemuEvent) :
    shutdownCount (a ++ b) = shutdownCount a + shutdownCount b := by
  simp [shutdownCount]

theorem timeoutCount_cons (e : QemuEvent) (l : List QemuEvent) :
    timeoutCount (e :: l) = (if e = QemuEvent.QemuTimeout then 1 else 0) + timeoutCount l := by
  by_cases h : e = QemuEvent.QemuTimeout <;> simp [timeoutCount, List.filter_cons, h]
  omega

theorem shutdownCount_cons (e : QemuEvent) (l : List QemuEvent) :
    shutdownCount (e :: l) =
      (if e = QemuEvent.ShutdownCommand then 1 else 0) + shutdownCount l := by
  by_cases h : e = QemuEvent.ShutdownCommand <;> simp [shutdownCount, List.filter_cons, h]
  omega

theorem step_watchdogInv (ops : DeviceOps δ) (w : World δ) (n : Nat) (a : Action)
    (hinv : WatchdogInv w n) (ha : isTimeoutPost a = false) :
    WatchdogInv (World.step ops w a) (n + (if isShutdownPost a then 1 else 0)) := by
  obtain ⟨h1, h2, h3⟩ := hinv
  cases a with
  | post ev =>
    have ht : timeoutCount [ev] = 0 := by
      cases ev <;> simp_all [timeoutCount, isTimeoutPost]
    have hs : shutdownCount [ev] = (if isShutdownPost (Action.post ev) then 1 else 0) := by
      cases ev <;> simp [shutdownCount, isShutdownPost]
    refine ⟨?_, ?_, ?_⟩
    · show quitCount w.ctx.qmp + timeoutCount (w.queue ++ [ev]) ≤ w.fired
      rw [timeoutCount_append, ht]
      omega
    · exact h2
    · show w.ctx.watchdogs.length + shutdownCount (w.queue ++ [ev]) ≤ _
      rw [shutdownCount_append, hs]
      omega
  | fire =>
    simp only [World.step, isShutdownPost]
    split
    · rename_i hlt
      unfold watchdogCallback
      cases hh : w.ctx.handler with
      | none =>
        simp only [hh]
        refine ⟨?_, ?_, ?_⟩
        · show quitCount w.ctx.qmp + timeoutCount w.queue ≤ w.fired + 1
          omega
        · show w.fired + 1 ≤ w.ctx.watchdogs.length
          omega
        · show w.ctx.watchdogs.length + shutdownCount w.queue ≤ _
          simp
          omega
      | some h =>
        simp only [hh]
        refine ⟨?_, ?_, ?_⟩
        · show quitCount w.ctx.qmp + timeoutCount (w.queue ++ [QemuEvent.QemuTimeout]) ≤
            w.fired + 1
          have e1 : timeoutCount [QemuEvent.QemuTimeout] = 1 := by simp [timeoutCount]
          rw [timeoutCount_append, e1]
          omega
        · show w.fired + 1 ≤ w.ctx.watchdogs.length
          omega
        · show w.ctx.watchdogs.length + shutdownCount (w.queue ++ [QemuEvent.QemuTimeout]) ≤ _
          have e2 : shutdownCount [QemuEvent.QemuTimeout] = 0 := by simp [shutdownCount]
          rw [shutdownCount_append, e2]
          simp
          omega
    · exact ⟨h1, h2, by simpa using h3⟩
  | recv =>
    simp only [World.step, isShutdownPost]
    cases hh : w.ctx.handler with
    | none => exact ⟨h1, h2, by simpa using h3⟩
    | some h =>
      cases hq : w.queue with
      | nil => exact ⟨h1, h2, by simpa using h3⟩
      | cons ev rest =>
        obtain ⟨b1, b2, b3⟩ := run_runBound ops h w.ctx ev
        rw [hq, timeoutCount_cons] at h1
        rw [hq, shutdownCount_cons] at h3
        refine ⟨?_, ?_, ?_⟩
        · show quitCount (dispatch ops w.ctx ev).qmp + timeoutCount rest ≤ w.fired
          simp only [dispatch, hh]
          omega
        · show w.fired ≤ (dispatch ops w.ctx ev).watchdogs.length
          simp only [dispatch, hh]
          omega
        · show (dispatch ops w.ctx ev).watchdogs.length + shutdownCount rest ≤ _
          simp only [dispatch, hh]
          simp
          omega

theorem run_watchdogInv (ops : DeviceOps δ) (acts : List Action) :
    ∀ (w : World δ) (n : Nat), WatchdogInv w n →
      (∀ a ∈ acts, isTimeoutPost a = false) →
      WatchdogInv (World.run ops w acts) (n + (acts.filter isShutdownPost).length) := by
  induction acts with
  | nil =>
    intro w n hinv _
    simpa [World.run] using hinv
  | cons a acts ih =>
    intro w n hinv hno
    have hstep := step_watchdogInv ops w n a hinv (hno a (List.mem_cons_self a acts))
    have hrest := ih (World.step ops w a) _ hstep
      (fun b hb => hno b (List.mem_cons_of_mem a hb))
    have hlen : n + (if isShutdownPost a then 1 else 0) + (acts.filter isShutdownPost).length =
        n + ((a :: acts).filter isShutdownPost).length := by
      cases hs : isShutdownPost a <;> simp [List.filter_cons, hs]
      omega
    rw [hlen] at hrest
    simpa [World.run] using hrest

/-- C4 (amended): run the controller from `stateRunning` on a context with no
watchdog armed and no session submitted, over any trace of bus posts, watchdog
callbacks and receives of the main loop in which QemuTimeout is posted only by
watchdog callbacks. Then the quit sessions submitted on `ctx.qmp` are at most
as many as the watchdogs armed, and the watchdogs armed are at most as many as
the ShutdownCommand events posted; so with at most one ShutdownCommand at most
one watchdog is armed and at most one quit session is submitted. For the trace
ShutdownCommand, QemuTimeout, QemuExitEvent exactly one quit session is
submitted. -/
theorem forced_quit_bounded_by_shutdowns (ops : DeviceOps δ) (ctx : QemuContext δ)
    (acts : List Action) (m : String)
    (hh : ctx.handler = some Handler.running) (hq : ctx.qmp = []) (hw : ctx.watchdogs = [])
    (hno : ∀ a ∈ acts, isTimeoutPost a = false) :
    quitCount (World.run ops ⟨ctx, [], 0⟩ acts).ctx.qmp ≤
      (World.run ops ⟨ctx, [], 0⟩ acts).ctx.watchdogs.length ∧
    (World.run ops ⟨ctx, [], 0⟩ acts).ctx.watchdogs.length ≤
      (acts.filter isShutdownPost).length ∧
    ((acts.filter isShutdownPost).length ≤ 1 →
      (World.run ops ⟨ctx, [], 0⟩ acts).ctx.watchdogs.length ≤ 1 ∧
      quitCount (World.run ops ⟨ctx, [], 0⟩ acts).ctx.qmp ≤ 1) ∧
    quitCount (QemuLoop ops ctx
      [QemuEvent.ShutdownCommand, QemuEvent.QemuTimeout, QemuEvent.QemuExitEvent m]).qmp = 1 := by
  have h0 : WatchdogInv (⟨ctx, [], 0⟩ : World δ) 0 := by
    refine ⟨?_, ?_, ?_⟩
    · simp [hq, quitCount, timeoutCount]
    · simp
    · simp [hw, shutdownCount]
  obtain ⟨i1, i2, i3⟩ := run_watchdogInv ops acts ⟨ctx, [], 0⟩ 0 h0 hno
  refine ⟨by omega, by omega, fun hle => ⟨by omega, by omega⟩, ?_⟩
  simp [QemuLoop, dispatch, hh, Handler.run, stateRunning, stateTerminating, stateCleaningUp,
    commonStateHandler, onQemuExit, QemuContext.Become, QemuContext.Close, hq, quitCount]

/-- One shutdown request whose watchdog fires before QEMU exits: one watchdog,
one quit session. -/
theorem forced_quit_bounded_by_shutdowns_witness :
    quitCount (World.run countingOps ⟨freshContext Handler.running 0, [], 0⟩
        shutdownTimeoutTrace).ctx.qmp ≤
      (World.run countingOps ⟨freshContext Handler.running 0, [], 0⟩
        shutdownTimeoutTrace).ctx.watchdogs.length ∧
    (World.run countingOps ⟨freshContext Handler.running 0, [], 0⟩
        shutdownTimeoutTrace).ctx.watchdogs.length ≤
      (shutdownTimeoutTrace.filter isShutdownPost).length ∧
    ((World.run countingOps ⟨freshContext Handler.running 0, [], 0⟩
        shutdownTimeoutTrace).ctx.watchdogs.length ≤ 1 ∧
      quitCount (World.run countingOps ⟨freshContext Handler.running 0, [], 0⟩
        shutdownTimeoutTrace).ctx.qmp ≤ 1) ∧
    quitCount (QemuLoop countingOps (freshContext Handler.running 0)
      [QemuEvent.ShutdownCommand, QemuEvent.QemuTimeout,
       QemuEvent.QemuExitEvent "qemu exit with 0"]).qmp = 1 :=
  have h := forced_quit_bounded_by_shutdowns countingOps (freshContext Handler.running 0)
    shutdownTimeoutTrace "qemu exit with 0" rfl rfl rfl (by decide)
  ⟨h.1, h.2.1, h.2.2.1 (by decide), h.2.2.2⟩

/-- C4 (counterexample): from `stateRunning`, two ShutdownCommand events arm
two watchdogs; each delivers its QemuTimeout while the handler is
`stateTerminating`, and two quit sessions are submitted on `ctx.qmp`. -/
theorem forced_quit_twice_counterexample :
    ¬ ((World.run countingOps ⟨freshContext Handler.running 0, [], 0⟩
          twoShutdownsTrace).ctx.watchdogs.length ≤ 1) ∧
    ¬ (quitCount (World.run countingOps ⟨freshContext Handler.running 0, [], 0⟩
          twoShutdownsTrace).ctx.qmp ≤ 1) := by
  decide

/-! ## Theorems: guest-agent frames -/

theorem bigEndian_be_u32 (n : Nat) (h : n < 2 ^ 32) : bigEndian (be_u32 n) = n := by
  simp only [bigEndian, be_u32, List.foldl_cons, List.foldl_nil]
  omega

theorem bigEndian_be_u64 (s : Nat) (h : s < 2 ^ 64) : bigEndian (be_u64 s) = s := by
  simp only [bigEndian, be_u64, List.foldl_cons, List.foldl_nil]
  omega

theorem be_u64_length (s : Nat) : (be_u64 s).length = 8 := rfl

theorem be_u32_length (n : Nat) : (be_u32 n).length = 4 := rfl

theorem frame_length (s : Nat) (p : Bytes) : (frame s p).length = 12 + p.length := by
  simp [frame, be_u64_length, be_u32_length]
  omega

theorem Conn.read_ok (c : Conn) (want : Nat) (hd : 0 < c.data.length) :
    c.Read want =
      Except.ok (c.data.take (c.readSize want),
        { data := c.data.drop (c.readSize want), sizes := c.sizes.tail }) := by
  unfold Conn.Read
  cases hc : c.data with
  | nil => simp [hc] at hd
  | cons b bs => rfl

theorem Conn.readSize_bounds (c : Conn) (want : Nat) (hw : 0 < want) (hd : 0 < c.data.length) :
    1 ≤ c.readSize want ∧ c.readSize want ≤ want ∧ c.readSize want ≤ c.data.length := by
  unfold Conn.readSize
  omega

theorem frame_takeAll (s : Nat) (p rest : Bytes) :
    (frame s p ++ rest).take (12 + p.length) = frame s p := by
  rw [← frame_length s p]
  exact List.take_left' rfl

theorem frame_dropAll (s : Nat) (p rest : Bytes) :
    (frame s p ++ rest).drop (12 + p.length) = rest := by
  rw [← frame_length s p]
  exact List.drop_left' rfl

theorem frame_sessionField (s : Nat) (p : Bytes) : (frame s p).take 8 = be_u64 s := by
  simp [frame, be_u64, be_u32]

theorem frame_payload (s : Nat) (p : Bytes) : (frame s p).drop 12 = p := by
  simp [frame, be_u64, be_u32]

theorem frame_lengthField (s : Nat) (p rest : Bytes) :
    (((frame s p ++ rest).take 12).drop 8).take 4 = be_u32 (12 + p.length) := by
  simp [frame, be_u64, be_u32]

/-- The loop of `readTtyMessage` on a connection that holds a frame followed
by further bytes: from any point of the header phase or of the payload phase
it returns the session and the payload of the frame and leaves the further
bytes pending. -/
theorem readTtyLoop_frame (s : Nat) (p rest : Bytes) (hs : s < 2 ^ 64)
    (hp : 12 + p.length < 2 ^ 32) :
    ∀ (fuel needRead length read : Nat) (sizes : List Nat),
      read ≤ 12 + p.length →
      ((read < 12 ∧ length = 0 ∧ needRead = 12) ∨
        (12 ≤ read ∧ length = 12 + p.length ∧ needRead = 12 + p.length)) →
      12 + p.length - read < fuel →
      ∃ c, readTtyLoop fuel needRead length read ((frame s p ++ rest).take read)
            ⟨(frame s p ++ rest).drop read, sizes⟩ = Except.ok (⟨s, p⟩, c) ∧
          c.data = rest := by
  intro fuel
  induction fuel with
  | zero =>
    intro needRead length read sizes hle hphase hfuel
    omega
  | succ k ih =>
    intro needRead length read sizes hle hphase hfuel
    have hFlen : (frame s p ++ rest).length = 12 + p.length + rest.length := by
      rw [List.length_append, frame_length]
    by_cases hlt : read < needRead
    · have hN : needRead ≤ 12 + p.length := by omega
      have hd : 0 < (Conn.mk ((frame s p ++ rest).drop read) sizes).data.length := by
        simp only [List.length_drop, hFlen]
        omega
      rw [readTtyLoop]
      simp only [hlt, if_true]
      rw [Conn.read_ok _ _ hd]
      simp only []
      have hw : 0 < (if needRead - read > 512 then 512 else needRead - read) := by
        split <;> omega
      have hwle : (if needRead - read > 512 then 512 else needRead - read) ≤ needRead - read := by
        split <;> omega
      obtain ⟨b1, b2, b3⟩ := Conn.readSize_bounds _ _ hw hd
      generalize (Conn.mk ((frame s p ++ rest).drop read) sizes).readSize
        (if needRead - read > 512 then 512 else needRead - read) = nr at b1 b2 b3 ⊢
      simp only [List.length_drop, hFlen] at b3
      have hchunk : (((frame s p ++ rest).drop read).take nr).length = nr := by
        simp only [List.length_take, List.length_drop, hFlen]
        omega
      have hres : (frame s p ++ rest).take read ++ ((frame s p ++ rest).drop read).take nr =
          (frame s p ++ rest).take (read + nr) := by
        rw [List.take_add]
      have hdrop : ((frame s p ++ rest).drop read).drop nr =
          (frame s p ++ rest).drop (read + nr) := by
        rw [List.drop_drop]
      rw [hchunk, hres, hdrop]
      rcases hphase with ⟨hr, hl, hn⟩ | ⟨hr, hl, hn⟩
      · subst hl hn
        by_cases h12 : read + nr ≥ 12
        · have e12 : read + nr = 12 := by omega
          rw [e12, frame_lengthField, bigEndian_be_u32 _ hp, if_pos ⟨rfl, le_refl 12⟩]
          by_cases hbig : 12 + p.length > 12
          · rw [if_pos hbig]
            exact ih _ _ 12 _ (by omega) (Or.inr ⟨le_refl _, rfl, rfl⟩) (by omega)
          · rw [if_neg hbig]
            have hN12 : 12 = 12 + p.length := by omega
            exact ih 12 _ 12 _ (by omega) (Or.inr ⟨le_refl _, rfl, hN12⟩) (by omega)
        · have hcond : ¬ (0 = 0 ∧ read + nr ≥ 12) := fun h => h12 h.2
          rw [if_neg hcond]
          exact ih 12 0 (read + nr) _ (by omega) (Or.inl ⟨by omega, rfl, rfl⟩) (by omega)
      · subst hl hn
        have hcond : ¬ (12 + p.length = 0 ∧ read + nr ≥ 12) := fun h => by omega
        rw [if_neg hcond]
        exact ih _ _ (read + nr) _ (by omega) (Or.inr ⟨by omega, rfl, rfl⟩) (by omega)
    · have hrN : read = 12 + p.length := by omega
      rw [readTtyLoop]
      simp only [hlt, if_false]
      subst hrN
      refine ⟨⟨(frame s p ++ rest).drop (12 + p.length), sizes⟩, ?_, frame_dropAll s p rest⟩
      rw [frame_takeAll, frame_sessionField, frame_payload, bigEndian_be_u64 _ hs]

/-- The bound on the rounds of the loop is never the reason for an error:
with more rounds allowed than bytes pending, `readTtyLoop` does not end by
the cut-off. -/
theorem readTtyLoop_not_cutOff :
    ∀ (fuel needRead length read : Nat) (res : Bytes) (conn : Conn),
      conn.data.length < fuel →
      readTtyLoop fuel needRead length read res conn ≠ Except.error ReadError.cutOff := by
  intro fuel
  induction fuel with
  | zero =>
    intro needRead length read res conn h
    omega
  | succ k ih =>
    intro needRead length read res conn h
    rw [readTtyLoop]
    by_cases hlt : read < needRead
    · simp only [hlt, if_true]
      by_cases hd : 0 < conn.data.length
      · rw [Conn.read_ok _ _ hd]
        have hw : 0 < (if needRead - read > 512 then 512 else needRead - read) := by
          split <;> omega
        obtain ⟨b1, b2, b3⟩ := Conn.readSize_bounds conn _ hw hd
        generalize conn.readSize (if needRead - read > 512 then 512 else needRead - read) = nr
          at b1 b2 b3 ⊢
        have hless : (Conn.mk (conn.data.drop nr) conn.sizes.tail).data.length < k := by
          simp only [List.length_drop]
          omega
        simp only []
        split
        · split
          · exact ih _ _ _ _ _ hless
          · exact ih _ _ _ _ _ hless
        · exact ih _ _ _ _ _ hless
      · have hnil : conn.data = [] := List.length_eq_zero.mp (by omega)
        simp [Conn.Read, hnil]
    · rw [if_neg hlt]
      simp

/-- C9: for every 64-bit session id `s`, every payload `p` with `12 + len(p)`
representable in 32 bits, every sequence of further bytes after the frame
`be_u64(s) || be_u32(12 + len(p)) || p` and every way the connection splits
the bytes into successive reads (each delivering at least one and at most the
requested number of bytes), `readTtyMessage` returns without error the message
with session `s` and payload `p`, and exactly the bytes after the frame are
left pending on the connection. -/
theorem readTtyMessage_frame (s : Nat) (p rest : Bytes) (sizes : List Nat)
    (hs : s < 2 ^ 64) (hp : 12 + p.length < 2 ^ 32) :
    ∃ c, readTtyMessage ⟨frame s p ++ rest, sizes⟩ = Except.ok (⟨s, p⟩, c) ∧ c.data = rest := by
  have h := readTtyLoop_frame s p rest hs hp ((frame s p ++ rest).length + 1) 12 0 0 sizes
    (by omega) (Or.inl ⟨by omega, rfl, rfl⟩)
    (by rw [List.length_append, frame_length]; omega)
  simpa [readTtyMessage] using h

/-- The frame of session 7 with payload `[1, 2, 3]`, followed by three more
bytes, delivered by the connection in pieces of 5, 1, 3, 3, 1 and 2 bytes. -/
theorem readTtyMessage_frame_witness :
    (7 < 2 ^ 64 ∧ 12 + [1, 2, 3].length < 2 ^ 32) ∧
    ∃ c, readTtyMessage ⟨frame 7 [1, 2, 3] ++ [0, 0, 0], [5, 0, 3, 100, 1]⟩ =
      Except.ok (⟨7, [1, 2, 3]⟩, c) ∧ c.data = [0, 0, 0] :=
  ⟨by decide, readTtyMessage_frame 7 [1, 2, 3] [0, 0, 0] [5, 0, 3, 100, 1] (by decide) (by decide)⟩

/-- C10 (the code at the failing input): for a known session the writer
`waitTtyMessage` puts the payload of the outbound message on the socket and
nothing else, so the bytes written are never the frame
`be_u64(s) || be_u32(12 + len(p)) || p`; for session 1 and the payload `[97]`
the socket holds the single byte 97 instead of the 13 bytes of the frame, and
`readTtyMessage` applied to what was written fails instead of returning the
session and the payload. -/
theorem waitTtyMessage_writes_payload_only (s : Nat) (a : ttyAttachments)
    (others : List (Nat × ttyAttachments)) (p : Bytes) :
    (waitTtyMessage ((s, a) :: others) ⟨[], false⟩ [⟨s, p⟩]).sent = p ∧
    (waitTtyMessage ((s, a) :: others) ⟨[], false⟩ [⟨s, p⟩]).sent ≠ frame s p ∧
    (waitTtyMessage [(1, ⟨0, false, []⟩)] ⟨[], false⟩ [⟨1, [97]⟩]).sent = [97] ∧
    frame 1 [97] = [0, 0, 0, 0, 0, 0, 0, 1, 0, 0, 0, 13, 97] ∧
    readTtyMessage ⟨(waitTtyMessage [(1, ⟨0, false, []⟩)] ⟨[], false⟩ [⟨1, [97]⟩]).sent, []⟩ =
      Except.error ReadError.EOF := by
  have h1 : (waitTtyMessage ((s, a) :: others) ⟨[], false⟩ [⟨s, p⟩]).sent = p := by
    simp [waitTtyMessage, List.lookup]
  refine ⟨h1, ?_, by decide, by decide, rfl⟩
  rw [h1]
  intro h
  have hl := congrArg List.length h
  rw [frame_length] at hl
  omega

/-! ## Theorems: guest-agent TTY sessions -/

theorem lookup_cons_eq {α : Type} (m : List (Nat × α)) (i j : Nat) (w : α) :
    ((i, w) :: m).lookup j = if j = i then some w else m.lookup j := by
  by_cases h : j = i
  · subst h
    simp [List.lookup]
  · have hb : (j == i) = false := by simpa using h
    simp [List.lookup, hb, h]

theorem lookup_mapDelete_self {α : Type} (m : List (Nat × α)) (k : Nat) :
    (mapDelete m k).lookup k = none := by
  induction m with
  | nil => rfl
  | cons e m ih =>
    obtain ⟨j, v⟩ := e
    by_cases h : j = k
    · have hd : mapDelete ((j, v) :: m) k = mapDelete m k := by
        simp [mapDelete, List.filter_cons, h]
      rw [hd, ih]
    · have hd : mapDelete ((j, v) :: m) k = (j, v) :: mapDelete m k := by
        simp [mapDelete, List.filter_cons, h]
      rw [hd, lookup_cons_eq, ih, if_neg (fun hh => h hh.symm)]

theorem lookup_mapDelete_other {α : Type} (m : List (Nat × α)) (k j : Nat) (hne : j ≠ k) :
    (mapDelete m k).lookup j = m.lookup j := by
  induction m with
  | nil => rfl
  | cons e m ih =>
    obtain ⟨i, v⟩ := e
    by_cases h : i = k
    · have hd : mapDelete ((i, v) :: m) k = mapDelete m k := by
        simp [mapDelete, List.filter_cons, h]
      rw [hd, ih, lookup_cons_eq, if_neg (by rw [h]; exact hne)]
    · have hd : mapDelete ((i, v) :: m) k = (i, v) :: mapDelete m k := by
        simp [mapDelete, List.filter_cons, h]
      rw [hd, lookup_cons_eq, lookup_cons_eq, ih]

theorem lookup_map_set {α : Type} (m : List (Nat × α)) (k j : Nat) (v : α) :
    (m.map (fun e => if e.1 = k then (k, v) else e)).lookup j =
      if j = k then (m.lookup k).map (fun _ => v) else m.lookup j := by
  induction m with
  | nil => by_cases h : j = k <;> simp [h]
  | cons e m ih =>
    obtain ⟨i, w⟩ := e
    by_cases hik : i = k
    · have hm : ((i, w) :: m).map (fun e => if e.1 = k then (k, v) else e) =
          (k, v) :: m.map (fun e => if e.1 = k then (k, v) else e) := by
        simp [hik]
      rw [hm, lookup_cons_eq, lookup_cons_eq, lookup_cons_eq, ih, hik]
      by_cases hj : j = k <;> simp [hj]
    · have hm : ((i, w) :: m).map (fun e => if e.1 = k then (k, v) else e) =
          (i, w) :: m.map (fun e => if e.1 = k then (k, v) else e) := by
        simp [hik]
      rw [hm, lookup_cons_eq, lookup_cons_eq, lookup_cons_eq, ih]
      by_cases hj : j = k
      · have hji : ¬ j = i := by
          rw [hj]
          exact fun hh => hik hh.symm
        have hki : ¬ k = i := fun hh => hik hh.symm
        simp [hj, hki]
      · by_cases hji : j = i
        · subst hji
          simp [hj]
        · simp [hj, hji]

theorem lookup_append_single {α : Type} (m : List (Nat × α)) (k j : Nat) (v : α) :
    (m ++ [(k, v)]).lookup j =
      match m.lookup j with
      | some w => some w
      | none => if j = k then some v else none := by
  induction m with
  | nil =>
    rw [List.nil_append, lookup_cons_eq]
    rfl
  | cons e m ih =>
    obtain ⟨i, w⟩ := e
    rw [List.cons_append, lookup_cons_eq, lookup_cons_eq, ih]
    by_cases hji : j = i <;> simp [hji]

theorem lookup_mapSet_self {α : Type} (m : List (Nat × α)) (k : Nat) (v : α) :
    (mapSet m k v).lookup k = some v := by
  unfold mapSet
  cases h : m.lookup k with
  | none => simp [lookup_append_single, h]
  | some w => simp [lookup_map_set, h]

theorem lookup_mapSet_other {α : Type} (m : List (Nat × α)) (k j : Nat) (v : α) (hne : j ≠ k) :
    (mapSet m k v).lookup j = m.lookup j := by
  unfold mapSet
  cases h : m.lookup k with
  | none =>
    simp only [lookup_append_single, hne, if_false]
    cases m.lookup j <;> rfl
  | some w => simp [lookup_map_set, hne]

theorem detachLoop_foldl ( tty : TtyIO) (l : List TtyIO) (acc : List TtyIO) (d : Bool) :
    (l.foldl (detachLoop tty) (acc, d)).1 =
        acc ++ l.filter (fun a => decide (tty.ClientTag ≠ a.ClientTag)) ∧
    ((l.foldl (detachLoop tty) (acc, d)).2 = false →
        l.filter (fun a => decide (tty.ClientTag ≠ a.ClientTag)) = l) := by
  induction l generalizing acc d with
  | nil => simp
  | cons a l ih =>
    by_cases h : tty.ClientTag = a.ClientTag
    · have hs : detachLoop tty (acc, d) a = (acc, true) := by simp [detachLoop, h]
      simp only [List.foldl_cons, hs]
      obtain ⟨i1, i2⟩ := ih acc true
      refine ⟨by simpa [List.filter_cons, h] using i1, ?_⟩
      intro hf
      have key : ∀ (l : List TtyIO) (acc : List TtyIO),
          (l.foldl (detachLoop tty) (acc, true)).2 = true := by
        intro l
        induction l with
        | nil => intro acc; rfl
        | cons b l ihl =>
          intro acc
          by_cases hb : tty.ClientTag = b.ClientTag <;>
            simp [List.foldl_cons, detachLoop, hb, ihl]
      rw [key] at hf
      exact absurd hf (by simp)
    · have hs : detachLoop tty (acc, d) a = (acc ++ [a], d) := by simp [detachLoop, h]
      simp only [List.foldl_cons, hs]
      obtain ⟨i1, i2⟩ := ih (acc ++ [a]) d
      refine ⟨by simpa [List.filter_cons, h] using i1, ?_⟩
      intro hf
      have hl := i2 hf
      rw [List.filter_cons]
      simp only [ne_eq, h, not_false_eq_true, decide_True, if_true]
      rw [hl]

theorem detach_attachments (ta : ttyAttachments) ( tty : TtyIO) :
    (ta.detach tty).attachments =
      ta.attachments.filter (fun a => decide (tty.ClientTag ≠ a.ClientTag)) := by
  obtain ⟨h1, h2⟩ := detachLoop_foldl tty ta.attachments [] false
  unfold ttyAttachments.detach
  by_cases hf : (ta.attachments.foldl (detachLoop tty) ([], false)).2 = true
  · simp only [hf, if_true]
    simpa using h1
  · have hff : (ta.attachments.foldl (detachLoop tty) ([], false)).2 = false := by
      simpa using hf
    simp only [hff]
    exact (h2 hff).symm

theorem detach_keeps (ta : ttyAttachments) ( tty : TtyIO) :
    (ta.detach tty).persistent = ta.persistent ∧ (ta.detach tty).container = ta.container := by
  unfold ttyAttachments.detach
  by_cases hf : (ta.attachments.foldl (detachLoop tty) ([], false)).2 = true <;> simp [hf]

theorem close_fold (l : List TtyIO) (tags : List String) (effs : List TtyEffect) :
    l.foldl (fun (acc : List String × List TtyEffect) t =>
        (acc.1 ++ [( TtyIO.Close t).2], acc.2 ++ ( TtyIO.Close t).1)) (tags, effs) =
      (tags ++ l.map (fun t => t.ClientTag), effs ++ closeEffects l) := by
  induction l generalizing tags effs with
  | nil => simp [closeEffects]
  | cons t l ih =>
    obtain ⟨si, so, tag, cb⟩ := t
    simp only [List.foldl_cons, ih, List.map_cons, closeEffects]
    cases si <;> cases so <;> cases cb <;> simp [ TtyIO.Close]

theorem closeEffects_mem (l : List TtyIO) ( t : TtyIO) (ht : t ∈ l) :
    (∀ h, t.Stdin = some h → TtyEffect.closeStdin h ∈ closeEffects l) ∧
    (∀ h, t.Stdout = some h → TtyEffect.closeStdout h ∈ closeEffects l) ∧
    (∀ ch, t.Callback = some ch →
      TtyEffect.callback ch (QemuResponse.mk "" RespCode.E_EXEC_FINISH "Command finished" none)
        ∈ closeEffects l) := by
  induction l with
  | nil => simp at ht
  | cons a l ih =>
    rcases List.mem_cons.mp ht with hta | hta
    · subst hta
      refine ⟨?_, ?_, ?_⟩
      · intro h hs
        simp [closeEffects, hs]
      · intro h hs
        simp [closeEffects, hs]
      · intro ch hs
        simp [closeEffects, hs]
    · obtain ⟨i1, i2, i3⟩ := ih hta
      refine ⟨?_, ?_, ?_⟩
      · intro h hs
        simp [closeEffects, i1 h hs]
      · intro h hs
        simp [closeEffects, i2 h hs]
      · intro ch hs
        simp [closeEffects, i3 ch hs]

theorem close_result (ta : ttyAttachments) :
    ta.close.tags = ta.attachments.map (fun t => t.ClientTag) ∧
    ta.close.effects = closeEffects ta.attachments ∧
    ta.close.ta.attachments = [] := by
  have h := close_fold ta.attachments [] []
  simp only [List.nil_append] at h
  simp [ttyAttachments.close, h]

theorem detach_eq (ta : ttyAttachments) ( t : TtyIO) :
    ta.detach t =
      { ta with attachments :=
          ta.attachments.filter (fun a => decide (a.ClientTag ≠ t.ClientTag)) } := by
  have h1 := detach_attachments ta t
  obtain ⟨h2, h3⟩ := detach_keeps ta t
  have hf : ta.attachments.filter (fun a => decide (t.ClientTag ≠ a.ClientTag)) =
      ta.attachments.filter (fun a => decide (a.ClientTag ≠ t.ClientTag)) := by
    apply List.filter_congr
    intro a _
    by_cases h : a.ClientTag = t.ClientTag
    · simp [h]
    · have h' : ¬ t.ClientTag = a.ClientTag := fun hh => h hh.symm
      simp [h, h']
  rw [hf] at h1
  cases hd : ta.detach t with
  | mk c p a =>
    rw [hd] at h1 h2 h3
    simp only at h1 h2 h3
    subst h1 h2 h3
    rfl

theorem closeEffects_nil_of_empty (ta : ttyAttachments) (h : ta.empty = true) :
    ta.attachments = [] := by
  unfold ttyAttachments.empty at h
  exact List.length_eq_zero.mp (by simpa using h)

theorem close_empty_session (pts : pseudoTtys) (s : Nat) (ta : ttyAttachments)
    (hl : pts.ttys.lookup s = some ta) (he : ta.attachments = []) :
    pts.Close s = ({ pts with ttys := mapDelete pts.ttys s }, []) := by
  obtain ⟨h1, h2, _⟩ := close_result ta
  simp [pseudoTtys.Close, hl, h1, h2, he, closeEffects]

/-- The session map after `Detach`, and the effects of the call, for a session
that is in the map. -/
theorem detach_result (pts : pseudoTtys) (s : Nat) (ta : ttyAttachments) ( t : TtyIO)
    (hl : pts.ttys.lookup s = some ta) :
    (pts.Detach s t).2 = ( TtyIO.Close t).1 ++ [TtyEffect.clientDereg t.ClientTag] ∧
    (pts.Detach s t).1.ttys =
      if (!(ta.detach t).persistent && (ta.detach t).empty) = true then
        mapDelete (mapSet pts.ttys s (ta.detach t)) s
      else mapSet pts.ttys s (ta.detach t) := by
  unfold pseudoTtys.Detach
  simp only [hl]
  by_cases hc : (!(ta.detach t).persistent && (ta.detach t).empty) = true
  · have he : (ta.detach t).empty = true := by
      simp only [Bool.and_eq_true] at hc
      exact hc.2
    have hcl := close_empty_session { pts with ttys := mapSet pts.ttys s (ta.detach t) } s
      (ta.detach t) (lookup_mapSet_self _ _ _) (closeEffects_nil_of_empty _ he)
    simp only [hc, if_true, hcl]
    simp [ TtyIO.Close]
  · simp only [hc, if_false]
    simp [ TtyIO.Close]

/-- C20: `ttyAttachments.detach` removes by ClientTag. After `ta.detach(t)` the
attachments are the former attachments whose ClientTag differs from that of
`t`, in their order, and the set is unchanged when none matches; so two
attachments that share a ClientTag are both removed by detaching either one.
`pts.Detach` then closes only the subscriber it was given: its effects are
those of `t.Close()` followed by the deregistration of the tag of `t`. -/
theorem detach_removes_by_clientTag (ta : ttyAttachments) ( t : TtyIO) (pts : pseudoTtys)
    (s : Nat) :
    (ta.detach t).attachments =
      ta.attachments.filter (fun a => decide (a.ClientTag ≠ t.ClientTag)) ∧
    ((∀ a ∈ ta.attachments, a.ClientTag ≠ t.ClientTag) → ta.detach t = ta) ∧
    (∀ u : TtyIO, u.ClientTag = t.ClientTag →
      ({ ta with attachments := [t, u] }.detach t).attachments = [] ∧
      ({ ta with attachments := [t, u] }.detach u).attachments = []) ∧
    (pts.ttys.lookup s = some ta →
      (pts.Detach s t).2 = ( TtyIO.Close t).1 ++ [TtyEffect.clientDereg t.ClientTag]) := by
  refine ⟨?_, ?_, ?_, ?_⟩
  · rw [detach_eq]
  · intro hall
    rw [detach_eq]
    have hf : ta.attachments.filter (fun a => decide (a.ClientTag ≠ t.ClientTag)) =
        ta.attachments := by
      apply List.filter_eq_self.mpr
      intro a ha
      simpa using hall a ha
    rw [hf]
  · intro u hu
    constructor
    · rw [detach_eq]
      simp [hu]
    · rw [detach_eq]
      simp [hu]
  · intro hl
    exact (detach_result pts s ta t hl).1

/-- Two subscribers with the tag "a" attached to session 1: detaching the
second removes both, and only the second is closed. -/
theorem detach_removes_by_clientTag_witness :
    ({ container := 0, persistent := true, attachments := [sampleTtyB] }
        : ttyAttachments).detach sampleTtyA =
      { container := 0, persistent := true, attachments := [sampleTtyB] } ∧
    (({ container := 0, persistent := true, attachments := [sampleTtyB] }
        : ttyAttachments).detach sampleTtyA2).attachments = [sampleTtyB] ∧
    ((samplePts [sampleTtyA, sampleTtyA2]).Detach 1 sampleTtyA2).2 =
      ( TtyIO.Close sampleTtyA2).1 ++ [TtyEffect.clientDereg sampleTtyA2.ClientTag] :=
  ⟨(detach_removes_by_clientTag
      { container := 0, persistent := true, attachments := [sampleTtyB] } sampleTtyA
      (samplePts []) 1).2.1 (by decide),
   by
    rw [(detach_removes_by_clientTag
      { container := 0, persistent := true, attachments := [sampleTtyB] } sampleTtyA2
      (samplePts []) 1).1]
    decide,
   (detach_removes_by_clientTag
      { container := 0, persistent := false, attachments := [sampleTtyA, sampleTtyA2] }
      sampleTtyA2 (samplePts [sampleTtyA, sampleTtyA2]) 1).2.2.2 rfl⟩

/-- C12: for a session `s` of the map whose attachment set is not persistent
and holds the single subscriber `t`, `pts.Detach(ctx, s, t)` removes `s` from
the map. When the set is persistent, or an attachment with another ClientTag
is left, `s` stays in the map with the attachments whose ClientTag differs
from that of `t`, among which `t` is not. Other sessions keep their entry. -/
theorem detach_last_subscriber (pts : pseudoTtys) (s : Nat) (ta : ttyAttachments)
    ( t : TtyIO) (hl : pts.ttys.lookup s = some ta) :
    (ta.persistent = false → ta.attachments = [t] →
      (pts.Detach s t).1.ttys.lookup s = none) ∧
    ((ta.persistent = true ∨ ∃ u ∈ ta.attachments, u.ClientTag ≠ t.ClientTag) →
      (pts.Detach s t).1.ttys.lookup s =
        some { ta with attachments :=
          ta.attachments.filter (fun a => decide (a.ClientTag ≠ t.ClientTag)) } ∧
      t ∉ ta.attachments.filter (fun a => decide (a.ClientTag ≠ t.ClientTag))) ∧
    (∀ s2, s2 ≠ s → (pts.Detach s t).1.ttys.lookup s2 = pts.ttys.lookup s2) := by
  have hr := (detach_result pts s ta t hl).2
  refine ⟨?_, ?_, ?_⟩
  · intro hp ha
    have hc : (!(ta.detach t).persistent && (ta.detach t).empty) = true := by
      rw [detach_eq]
      simp [hp, ha, ttyAttachments.empty]
    rw [hr, if_pos hc, lookup_mapDelete_self]
  · intro hcase
    have hc : ¬ ((!(ta.detach t).persistent && (ta.detach t).empty) = true) := by
      rw [detach_eq]
      rcases hcase with hp | ⟨u, hu, hne⟩
      · simp [hp]
      · have hmem : u ∈ ta.attachments.filter (fun a => decide (a.ClientTag ≠ t.ClientTag)) := by
          simp [List.mem_filter, hu, hne]
        have hlen : 0 < (ta.attachments.filter
            (fun a => decide (a.ClientTag ≠ t.ClientTag))).length :=
          List.length_pos_of_mem hmem
        simp only [ttyAttachments.empty, Bool.and_eq_true, beq_iff_eq]
        intro hh
        omega
    constructor
    · rw [hr, if_neg hc, lookup_mapSet_self, detach_eq]
    · simp [List.mem_filter]
  · intro s2 hs2
    rw [hr]
    split
    · rw [lookup_mapDelete_other _ _ _ hs2, lookup_mapSet_other _ _ _ _ hs2]
    · rw [lookup_mapSet_other _ _ _ _ hs2]

/-- Session 1 with the single subscriber "a" is closed by detaching it; with
a second subscriber "b" it stays, holding "b" only. -/
theorem detach_last_subscriber_witness :
    ((samplePts [sampleTtyA]).Detach 1 sampleTtyA).1.ttys.lookup 1 = none ∧
    (((samplePts [sampleTtyA, sampleTtyB]).Detach 1 sampleTtyA).1.ttys.lookup 1 =
        some { container := 0, persistent := false,
               attachments := [sampleTtyA, sampleTtyB].filter
                 (fun a => decide (a.ClientTag ≠ sampleTtyA.ClientTag)) } ∧
      sampleTtyA ∉ [sampleTtyA, sampleTtyB].filter
        (fun a => decide (a.ClientTag ≠ sampleTtyA.ClientTag))) :=
  ⟨(detach_last_subscriber (samplePts [sampleTtyA]) 1
      { container := 0, persistent := false, attachments := [sampleTtyA] } sampleTtyA rfl).1
      rfl rfl,
   (detach_last_subscriber (samplePts [sampleTtyA, sampleTtyB]) 1
      { container := 0, persistent := false, attachments := [sampleTtyA, sampleTtyB] }
      sampleTtyA rfl).2.1 (Or.inr ⟨sampleTtyB, by decide, by decide⟩)⟩

/-- C11: when `waitPts` receives a message with an empty payload for a session
`s` of the map, `s` is removed from the map; every subscriber attached to `s`
is closed once, in order (its input half and its output half are closed when
present and its callback gets the completion response when present), and then
the tag of each is deregistered; the attachment list of `s` becomes empty, and
the entry of every other session is unchanged. A message, empty or not, for a
session that is not in the map changes nothing. -/
theorem waitPts_zero_length_closes (writeFails : Nat → Bool) (pts : pseudoTtys) (s : Nat)
    (ta : ttyAttachments) (hl : pts.ttys.lookup s = some ta) :
    (waitPtsMessage writeFails pts ⟨s, []⟩).1.ttys.lookup s = none ∧
    (waitPtsMessage writeFails pts ⟨s, []⟩).2 =
      closeEffects ta.attachments ++
        ta.attachments.map (fun t => TtyEffect.clientDereg t.ClientTag) ∧
    (∀ t ∈ ta.attachments,
      (∀ h, t.Stdin = some h →
        TtyEffect.closeStdin h ∈ (waitPtsMessage writeFails pts ⟨s, []⟩).2) ∧
      (∀ h, t.Stdout = some h →
        TtyEffect.closeStdout h ∈ (waitPtsMessage writeFails pts ⟨s, []⟩).2) ∧
      (∀ ch, t.Callback = some ch →
        TtyEffect.callback ch
          (QemuResponse.mk "" RespCode.E_EXEC_FINISH "Command finished" none) ∈
          (waitPtsMessage writeFails pts ⟨s, []⟩).2) ∧
      TtyEffect.clientDereg t.ClientTag ∈ (waitPtsMessage writeFails pts ⟨s, []⟩).2) ∧
    ta.close.ta.attachments = [] ∧
    (∀ s2, s2 ≠ s →
      (waitPtsMessage writeFails pts ⟨s, []⟩).1.ttys.lookup s2 = pts.ttys.lookup s2) ∧
    (∀ s0 msg, pts.ttys.lookup s0 = none →
      waitPtsMessage writeFails pts ⟨s0, msg⟩ = (pts, [])) := by
  obtain ⟨h1, h2, h3⟩ := close_result ta
  have hw : waitPtsMessage writeFails pts ⟨s, []⟩ =
      ({ pts with ttys := mapDelete pts.ttys s },
       closeEffects ta.attachments ++
         ta.attachments.map (fun t => TtyEffect.clientDereg t.ClientTag)) := by
    simp [waitPtsMessage, hl, pseudoTtys.Close, h1, h2]
  refine ⟨?_, ?_, ?_, h3, ?_, ?_⟩
  · rw [hw]
    exact lookup_mapDelete_self _ _
  · rw [hw]
  · intro t ht
    obtain ⟨m1, m2, m3⟩ := closeEffects_mem ta.attachments t ht
    rw [hw]
    refine ⟨?_, ?_, ?_, ?_⟩
    · intro h hs
      exact List.mem_append_left _ (m1 h hs)
    · intro h hs
      exact List.mem_append_left _ (m2 h hs)
    · intro ch hs
      exact List.mem_append_left _ (m3 ch hs)
    · exact List.mem_append_right _ (List.mem_map.mpr ⟨t, ht, rfl⟩)
  · intro s2 hs2
    rw [hw]
    exact lookup_mapDelete_other _ _ _ hs2
  · intro s0 msg h0
    simp [waitPtsMessage, h0]

/-- An empty message for session 1 with the subscribers "a" (input half 1,
output half 2, callback 3) and "b" (input half 4, output half 5, no callback):
both are closed, then both tags are deregistered; and a message for the
unknown session 9 changes nothing. -/
theorem waitPts_zero_length_closes_witness :
    (waitPtsMessage (fun _ => false) (samplePts [sampleTtyA, sampleTtyB]) ⟨1, []⟩).1.ttys.lookup 1
      = none ∧
    (waitPtsMessage (fun _ => false) (samplePts [sampleTtyA, sampleTtyB]) ⟨1, []⟩).2 =
      [TtyEffect.closeStdin 1, TtyEffect.closeStdout 2,
       TtyEffect.callback 3 (QemuResponse.mk "" RespCode.E_EXEC_FINISH "Command finished" none),
       TtyEffect.closeStdin 4, TtyEffect.closeStdout 5,
       TtyEffect.clientDereg "a", TtyEffect.clientDereg "b"] ∧
    TtyEffect.closeStdout 5 ∈
      (waitPtsMessage (fun _ => false) (samplePts [sampleTtyA, sampleTtyB]) ⟨1, []⟩).2 ∧
    waitPtsMessage (fun _ => false) (samplePts [sampleTtyA, sampleTtyB]) ⟨9, [104, 105]⟩ =
      (samplePts [sampleTtyA, sampleTtyB], []) :=
  have h := waitPts_zero_length_closes (fun _ => false) (samplePts [sampleTtyA, sampleTtyB]) 1
    { container := 0, persistent := false, attachments := [sampleTtyA, sampleTtyB] } rfl
  ⟨h.1, h.2.1.trans (by decide), (h.2.2.1 sampleTtyB (by decide)).2.1 5 rfl,
   h.2.2.2.2.2 9 [104, 105] rfl⟩

/-- C15 (the code at the failing input): session 1 holds the subscribers "a"
and "b", attached by `ptyConnect`. `pts.Detach` is called for "a" twice, as by
its input reader and by a failed write in `waitPts`; the session stays in the
map because "b" is still attached, and each call runs `Close` on "a": its
input and output halves are closed twice, its callback fires twice and its tag
is deregistered twice. -/
theorem detach_twice_closes_twice :
    (((⟨[], []⟩ : pseudoTtys).ptyConnect 0 1 sampleTtyA).1.ptyConnect 0 1 sampleTtyB).1 =
      samplePts [sampleTtyA, sampleTtyB] ∧
    (((samplePts [sampleTtyA, sampleTtyB]).Detach 1 sampleTtyA).1.Detach 1 sampleTtyA).1.ttys.lookup 1
      = some { container := 0, persistent := false, attachments := [sampleTtyB] } ∧
    (((samplePts [sampleTtyA, sampleTtyB]).Detach 1 sampleTtyA).2 ++
      (((samplePts [sampleTtyA, sampleTtyB]).Detach 1 sampleTtyA).1.Detach 1 sampleTtyA).2) =
      [TtyEffect.closeStdin 1, TtyEffect.closeStdout 2,
       TtyEffect.callback 3 (QemuResponse.mk "" RespCode.E_EXEC_FINISH "Command finished" none),
       TtyEffect.clientDereg "a",
       TtyEffect.closeStdin 1, TtyEffect.closeStdout 2,
       TtyEffect.callback 3 (QemuResponse.mk "" RespCode.E_EXEC_FINISH "Command finished" none),
       TtyEffect.clientDereg "a"] := by
  decide

/-! ## Theorems: serial TTY context -/

/-- C13: `tc.connect(ctx, id, io)` with an attach id already in the subscriber
map returns an error, leaves the context as it was and starts no input reader;
with an id not in the map it returns nil and the map afterwards is the old map
with the single entry `id -> io` added: `id` maps to `io` and every other id
maps to what it mapped to before. -/
theorem connect_duplicate_rejected (tc : ttyContext) (id : Nat) ( io : TtyIO) :
    ((tc.subscribers.lookup id).isSome = true →
      (tc.connect id io).err ≠ none ∧ (tc.connect id io).tc = tc ∧
      (tc.connect id io).readers = []) ∧
    (tc.subscribers.lookup id = none →
      (tc.connect id io).err = none ∧
      (tc.connect id io).tc.subscribers = tc.subscribers ++ [(id, io)] ∧
      (tc.connect id io).tc.subscribers.lookup id = some io ∧
      (∀ j, j ≠ id → (tc.connect id io).tc.subscribers.lookup j = tc.subscribers.lookup j)) := by
  constructor
  · intro h
    cases hl : tc.subscribers.lookup id with
    | none => simp [hl] at h
    | some old => simp [ttyContext.connect, hl]
  · intro hl
    refine ⟨?_, ?_, ?_, ?_⟩
    · simp [ttyContext.connect, hl]
    · simp [ttyContext.connect, hl, mapSet]
    · simp only [ttyContext.connect, hl]
      exact lookup_mapSet_self _ _ _
    · intro j hj
      simp only [ttyContext.connect, hl]
      exact lookup_mapSet_other _ _ _ _ hj

/-- A second attach under id 0 is refused, an attach under the fresh id 7 is
added. -/
theorem connect_duplicate_rejected_witness :
    ((sampleTc.connect 0 sampleTtyA2).err ≠ none ∧ (sampleTc.connect 0 sampleTtyA2).tc = sampleTc ∧
      (sampleTc.connect 0 sampleTtyA2).readers = []) ∧
    ((sampleTc.connect 7 sampleTtyA2).err = none ∧
      (sampleTc.connect 7 sampleTtyA2).tc.subscribers = sampleTc.subscribers ++ [(7, sampleTtyA2)] ∧
      (sampleTc.connect 7 sampleTtyA2).tc.subscribers.lookup 7 = some sampleTtyA2 ∧
      (∀ j, j ≠ 7 →
        (sampleTc.connect 7 sampleTtyA2).tc.subscribers.lookup j = sampleTc.subscribers.lookup j)) :=
  ⟨(connect_duplicate_rejected sampleTc 0 sampleTtyA2).1 rfl,
   (connect_duplicate_rejected sampleTc 7 sampleTtyA2).2 rfl⟩

theorem effectsOf_append (id : Nat) (a b : List (Nat × TtyEffect)) :
    effectsOf id (a ++ b) = effectsOf id a ++ effectsOf id b := by
  simp [effectsOf]

theorem closeTerm_absent (tc : ttyContext) (id : Nat) (h : tc.subscribers.lookup id = none) :
    tc.closeTerm id = (tc, []) := by
  simp [ttyContext.closeTerm, h]

/-- One call of `closeTerm` for a subscriber of the map: the entry is deleted,
the effects recorded for the id are the removal effects, and nothing is
recorded for another id. -/
theorem closeTerm_present (tc : ttyContext) (id : Nat) ( tty : TtyIO)
    (h : tc.subscribers.lookup id = some tty) :
    (tc.closeTerm id).1 = { tc with subscribers := mapDelete tc.subscribers id } ∧
    effectsOf id (tc.closeTerm id).2 = removalEffects id tty ∧
    (∀ j, j ≠ id → effectsOf j (tc.closeTerm id).2 = []) := by
  refine ⟨?_, ?_, ?_⟩
  · simp [ttyContext.closeTerm, h]
  · simp only [ttyContext.closeTerm, h, removalEffects]
    cases tty.Stdin <;> cases tty.Stdout <;> cases tty.Callback <;>
      by_cases ht : tty.ClientTag = "" <;> simp [effectsOf, ht]
  · intro j hj
    have hb : (id == j) = false := by simpa using fun hh => hj hh.symm
    simp only [ttyContext.closeTerm, h]
    cases tty.Stdin <;> cases tty.Stdout <;> cases tty.Callback <;>
      by_cases ht : tty.ClientTag = "" <;> simp [effectsOf, ht, hb]

theorem hasAttachId_eq (tc : ttyContext) (id : Nat) :
    tc.hasAttachId id = (tc.subscribers.lookup id).isSome := by
  unfold ttyContext.hasAttachId
  induction tc.subscribers with
  | nil => rfl
  | cons e m ih =>
    obtain ⟨i, w⟩ := e
    rw [lookup_cons_eq, List.any_cons, ih]
    by_cases h : id = i
    · subst h
      simp
    · have hb : (i == id) = false := by simpa using fun hh => h hh.symm
      simp [h, hb]

theorem findAndClose_eq (tc : ttyContext) (id : Nat) :
    tc.findAndClose id = (tc.closeTerm id, (tc.subscribers.lookup id).isSome) := by
  unfold ttyContext.findAndClose
  rw [hasAttachId_eq]
  cases h : tc.subscribers.lookup id with
  | none => simp [closeTerm_absent tc id h]
  | some tty => simp

theorem closeCall_run_eq (tc : ttyContext) (c : CloseCall) : c.run tc = tc.closeTerm c.id := by
  cases c with
  | closeTerm i => rfl
  | findAndClose i => simp [CloseCall.run, CloseCall.id, findAndClose_eq]

theorem runCloseCalls_cons (tc : ttyContext) (c : CloseCall) (calls : List CloseCall) :
    runCloseCalls tc (c :: calls) =
      ((runCloseCalls (tc.closeTerm c.id).1 calls).1,
       (tc.closeTerm c.id).2 ++ (runCloseCalls (tc.closeTerm c.id).1 calls).2) := by
  have gen : ∀ (calls : List CloseCall) (t : ttyContext) (log : List (Nat × TtyEffect)),
      calls.foldl (fun acc c => ((c.run acc.1).1, acc.2 ++ (c.run acc.1).2)) (t, log) =
        ((runCloseCalls t calls).1, log ++ (runCloseCalls t calls).2) := by
    intro calls
    induction calls with
    | nil => intro t log; simp [runCloseCalls]
    | cons d ds ih =>
      intro t log
      have h1 := ih (d.run t).1 (log ++ (d.run t).2)
      have h2 := ih (d.run t).1 ([] ++ (d.run t).2)
      simp only [runCloseCalls, List.foldl_cons] at h1 h2 ⊢
      rw [h1, h2]
      simp [runCloseCalls]
  have h := gen calls (c.run tc).1 ([] ++ (c.run tc).2)
  simp only [runCloseCalls, List.foldl_cons] at h ⊢
  rw [h, closeCall_run_eq]
  simp [runCloseCalls]

/-- The effects recorded for every id over a sequence of calls. -/
theorem runCloseCalls_effects (calls : List CloseCall) :
    ∀ (tc : ttyContext) (id : Nat),
      effectsOf id (runCloseCalls tc calls).2 =
        match tc.subscribers.lookup id with
        | some tty => if id ∈ calls.map CloseCall.id then removalEffects id tty else []
        | none => [] := by
  induction calls with
  | nil =>
    intro tc id
    cases tc.subscribers.lookup id <;> simp [runCloseCalls, effectsOf]
  | cons c calls ih =>
    intro tc id
    rw [runCloseCalls_cons, effectsOf_append, ih]
    by_cases hid : id = c.id
    · subst hid
      cases hl : tc.subscribers.lookup c.id with
      | none =>
        rw [closeTerm_absent tc c.id hl]
        simp [effectsOf, hl]
      | some tty =>
        obtain ⟨h1, h2, _⟩ := closeTerm_present tc c.id tty hl
        rw [h1, h2]
        simp [lookup_mapDelete_self]
    · cases hc : tc.subscribers.lookup c.id with
      | none =>
        rw [closeTerm_absent tc c.id hc]
        cases tc.subscribers.lookup id <;> simp [effectsOf, hid]
      | some tty =>
        obtain ⟨h1, _, h3⟩ := closeTerm_present tc c.id tty hc
        rw [h1, h3 id hid]
        simp only [lookup_mapDelete_other _ _ _ hid, List.nil_append]
        cases tc.subscribers.lookup id <;> simp [hid]

/-- C14: over every sequence of `closeTerm` / `findAndClose` calls on a serial
context, a subscriber of the map whose id is named by a call is removed with
its input and output halves closed once when present, its tag deregistered
once exactly when the tag is not empty, and its callback fired once when
present; nothing happens to a subscriber no call names. A `closeTerm` for an
id that is not in the map changes nothing, so a second `closeTerm(id)` has no
effect, and `findAndClose` reports whether the id was in the map. -/
theorem closeTerm_exactly_once (tc : ttyContext) (calls : List CloseCall) (id : Nat) :
    (∀ tty, tc.subscribers.lookup id = some tty → id ∈ calls.map CloseCall.id →
      effectsOf id (runCloseCalls tc calls).2 = removalEffects id tty ∧
      (runCloseCalls tc calls).1.subscribers.lookup id = none) ∧
    (id ∉ calls.map CloseCall.id →
      effectsOf id (runCloseCalls tc calls).2 = [] ∧
      (runCloseCalls tc calls).1.subscribers.lookup id = tc.subscribers.lookup id) ∧
    (tc.subscribers.lookup id = none → tc.closeTerm id = (tc, [])) ∧
    (tc.closeTerm id).1.closeTerm id = ((tc.closeTerm id).1, []) ∧
    tc.findAndClose id = (tc.closeTerm id, (tc.subscribers.lookup id).isSome) := by
  have hmap : ∀ (calls : List CloseCall) (t : ttyContext),
      (runCloseCalls t calls).1.subscribers.lookup id =
        if id ∈ calls.map CloseCall.id then none else t.subscribers.lookup id := by
    intro calls
    induction calls with
    | nil => intro t; simp [runCloseCalls]
    | cons c cs ih =>
      intro t
      rw [runCloseCalls_cons]
      simp only [ih]
      by_cases hid : id = c.id
      · subst hid
        cases hl : t.subscribers.lookup c.id with
        | none =>
          rw [closeTerm_absent t c.id hl]
          simp [hl]
        | some tty =>
          rw [(closeTerm_present t c.id tty hl).1]
          simp [lookup_mapDelete_self]
      · cases hl : t.subscribers.lookup c.id with
        | none =>
          rw [closeTerm_absent t c.id hl]
          simp [hid]
        | some tty =>
          rw [(closeTerm_present t c.id tty hl).1]
          simp [lookup_mapDelete_other _ _ _ hid, hid]
  have hsecond : (tc.closeTerm id).1.subscribers.lookup id = none := by
    cases hl : tc.subscribers.lookup id with
    | none => rw [closeTerm_absent tc id hl, hl]
    | some tty =>
      rw [(closeTerm_present tc id tty hl).1]
      exact lookup_mapDelete_self _ _
  refine ⟨?_, ?_, closeTerm_absent tc id, closeTerm_absent _ id hsecond, findAndClose_eq tc id⟩
  · intro tty hl hin
    rw [runCloseCalls_effects, hmap, hl]
    simp [hin]
  · intro hnot
    rw [runCloseCalls_effects, hmap]
    cases tc.subscribers.lookup id <;> simp [hnot]

/-- Subscriber 0 is named by three calls and removed once; subscriber 1 is
named by no call. -/
theorem closeTerm_exactly_once_witness :
    (effectsOf 0 (runCloseCalls sampleTc
        [CloseCall.closeTerm 0, CloseCall.findAndClose 0, CloseCall.closeTerm 5,
         CloseCall.closeTerm 0]).2 = removalEffects 0 sampleTtyA ∧
      (runCloseCalls sampleTc
        [CloseCall.closeTerm 0, CloseCall.findAndClose 0, CloseCall.closeTerm 5,
         CloseCall.closeTerm 0]).1.subscribers.lookup 0 = none) ∧
    (effectsOf 1 (runCloseCalls sampleTc
        [CloseCall.closeTerm 0, CloseCall.findAndClose 0, CloseCall.closeTerm 5,
         CloseCall.closeTerm 0]).2 = [] ∧
      (runCloseCalls sampleTc
        [CloseCall.closeTerm 0, CloseCall.findAndClose 0, CloseCall.closeTerm 5,
         CloseCall.closeTerm 0]).1.subscribers.lookup 1 = sampleTc.subscribers.lookup 1) ∧
    sampleTc.closeTerm 5 = (sampleTc, []) :=
  ⟨(closeTerm_exactly_once sampleTc
      [CloseCall.closeTerm 0, CloseCall.findAndClose 0, CloseCall.closeTerm 5,
       CloseCall.closeTerm 0] 0).1 sampleTtyA rfl (by decide),
   (closeTerm_exactly_once sampleTc
      [CloseCall.closeTerm 0, CloseCall.findAndClose 0, CloseCall.closeTerm 5,
       CloseCall.closeTerm 0] 1).2.1 (by decide),
   (closeTerm_exactly_once sampleTc [] 5).2.2.1 rfl⟩

/-! ## Theorems: fan-out of the serial stream -/

theorem lookup_none_of_not_mem {α : Type} (m : List (Nat × α)) (k : Nat)
    (h : k ∉ m.map Prod.fst) : m.lookup k = none := by
  induction m with
  | nil => rfl
  | cons e m ih =>
    obtain ⟨i, w⟩ := e
    simp only [List.map_cons, List.mem_cons, not_or] at h
    rw [lookup_cons_eq, if_neg h.1]
    exact ih h.2

theorem fanOut_absent (writeFails : Nat → Nat → Bool) (k b aid : Nat)
    (m : List (Nat × TtyIO)) (h : m.lookup aid = none) :
    effectsOf aid (fanOut writeFails k b m).1 = [] ∧ aid ∉ (fanOut writeFails k b m).2 := by
  induction m with
  | nil => simp [fanOut, effectsOf]
  | cons e m ih =>
    obtain ⟨i, rd⟩ := e
    rw [lookup_cons_eq] at h
    by_cases hi : aid = i
    · simp [hi] at h
    · rw [if_neg hi] at h
      obtain ⟨h1, h2⟩ := ih h
      have hb : (i == aid) = false := by simpa using fun hh => hi hh.symm
      simp only [fanOut]
      cases rd.Stdout with
      | none => exact ⟨h1, h2⟩
      | some hd =>
        by_cases hf : writeFails hd k = true
        · simp only [hf, if_true]
          exact ⟨h1, by simp [hi, h2]⟩
        · simp only [hf, if_false]
          refine ⟨?_, h2⟩
          simpa [effectsOf, List.filter_cons, hb] using h1

theorem fanOut_present (writeFails : Nat → Nat → Bool) (k b aid h : Nat) ( io : TtyIO)
    (m : List (Nat × TtyIO)) (hnd : (m.map Prod.fst).Nodup)
    (hl : m.lookup aid = some io) (hout : io.Stdout = some h) :
    (writeFails h k = false →
      effectsOf aid (fanOut writeFails k b m).1 = [TtyEffect.write h [b]] ∧
      aid ∉ (fanOut writeFails k b m).2) ∧
    (writeFails h k = true →
      effectsOf aid (fanOut writeFails k b m).1 = [] ∧ aid ∈ (fanOut writeFails k b m).2) := by
  induction m with
  | nil => simp at hl
  | cons e m ih =>
    obtain ⟨i, rd⟩ := e
    simp only [List.map_cons, List.nodup_cons] at hnd
    rw [lookup_cons_eq] at hl
    by_cases hi : aid = i
    · subst hi
      simp only [if_true, Option.some.injEq] at hl
      subst hl
      obtain ⟨a1, a2⟩ := fanOut_absent writeFails k b aid m (lookup_none_of_not_mem m aid hnd.1)
      simp only [fanOut, hout]
      constructor
      · intro hf
        simp only [hf]
        refine ⟨?_, a2⟩
        simpa [effectsOf, List.filter_cons] using a1
      · intro hf
        simp only [hf, if_true]
        exact ⟨a1, by simp⟩
    · rw [if_neg hi] at hl
      obtain ⟨i1, i2⟩ := ih hnd.2 hl
      have hb : (i == aid) = false := by simpa using fun hh => hi hh.symm
      simp only [fanOut]
      cases rd.Stdout with
      | none => exact ⟨i1, i2⟩
      | some hd =>
        by_cases hf : writeFails hd k = true
        · simp only [hf, if_true]
          constructor
          · intro hg
            exact ⟨(i1 hg).1, by simp [hi, (i1 hg).2]⟩
          · intro hg
            exact ⟨(i2 hg).1, by simp [(i2 hg).2]⟩
        · simp only [hf, if_false]
          constructor
          · intro hg
            refine ⟨?_, (i1 hg).2⟩
            simpa [effectsOf, List.filter_cons, hb] using (i1 hg).1
          · intro hg
            refine ⟨?_, (i2 hg).2⟩
            simpa [effectsOf, List.filter_cons, hb] using (i2 hg).1

theorem closeAll_eq (tc : ttyContext) (closed : List Nat) :
    closeAll tc closed = runCloseCalls tc (closed.map CloseCall.closeTerm) := by
  unfold closeAll runCloseCalls
  rw [List.foldl_map]
  rfl

theorem closeTerm_nodup (tc : ttyContext) (id : Nat) (h : (tc.subscribers.map Prod.fst).Nodup) :
    ((tc.closeTerm id).1.subscribers.map Prod.fst).Nodup := by
  cases hl : tc.subscribers.lookup id with
  | none =>
    rw [closeTerm_absent tc id hl]
    exact h
  | some tty =>
    rw [(closeTerm_present tc id tty hl).1]
    exact h.sublist ((List.filter_sublist _).map Prod.fst)

theorem closeAll_nodup (closed : List Nat) :
    ∀ tc : ttyContext, (tc.subscribers.map Prod.fst).Nodup →
      ((closeAll tc closed).1.subscribers.map Prod.fst).Nodup := by
  induction closed with
  | nil =>
    intro tc h
    simpa [closeAll] using h
  | cons c cs ih =>
    intro tc h
    have h1 := ih (tc.closeTerm c).1 (closeTerm_nodup tc c h)
    rw [closeAll_eq] at h1 ⊢
    rw [List.map_cons, runCloseCalls_cons]
    exact h1

theorem runCloseCalls_lookup (id : Nat) (calls : List CloseCall) :
    ∀ t : ttyContext, (runCloseCalls t calls).1.subscribers.lookup id =
      if id ∈ calls.map CloseCall.id then none else t.subscribers.lookup id := by
  induction calls with
  | nil => intro t; simp [runCloseCalls]
  | cons c cs ih =>
    intro t
    rw [runCloseCalls_cons]
    simp only [ih]
    by_cases hid : id = c.id
    · subst hid
      cases hl : t.subscribers.lookup c.id with
      | none =>
        rw [closeTerm_absent t c.id hl]
        simp [hl]
      | some tty =>
        rw [(closeTerm_present t c.id tty hl).1]
        simp [lookup_mapDelete_self]
    · cases hl : t.subscribers.lookup c.id with
      | none =>
        rw [closeTerm_absent t c.id hl]
        simp [hid]
      | some tty =>
        rw [(closeTerm_present t c.id tty hl).1]
        simp [lookup_mapDelete_other _ _ _ hid, hid]

theorem closeAll_spec (tc : ttyContext) (closed : List Nat) (aid : Nat) :
    (aid ∉ closed →
      effectsOf aid (closeAll tc closed).2 = [] ∧
      (closeAll tc closed).1.subscribers.lookup aid = tc.subscribers.lookup aid) ∧
    (∀ io, aid ∈ closed → tc.subscribers.lookup aid = some io →
      effectsOf aid (closeAll tc closed).2 = removalEffects aid io ∧
      (closeAll tc closed).1.subscribers.lookup aid = none) := by
  have hids : (closed.map CloseCall.closeTerm).map CloseCall.id = closed := by
    rw [List.map_map]
    exact List.map_id _
  have he := runCloseCalls_effects (closed.map CloseCall.closeTerm) tc aid
  have hm := runCloseCalls_lookup aid (closed.map CloseCall.closeTerm) tc
  rw [hids] at he hm
  rw [closeAll_eq]
  constructor
  · intro hnot
    rw [he, hm]
    cases tc.subscribers.lookup aid <;> simp [hnot]
  · intro io hin hl
    rw [he, hm, hl]
    simp [hin]

theorem ttyReceive_cons (writeFails : Nat → Nat → Bool) (k b : Nat) (rest : Bytes)
    (tc : ttyContext) :
    ttyReceive writeFails k (b :: rest) tc =
      ((ttyReceive writeFails (k + 1) rest
          (closeAll tc (fanOut writeFails k b tc.subscribers).2).1).1,
       (fanOut writeFails k b tc.subscribers).1 ++
         (closeAll tc (fanOut writeFails k b tc.subscribers).2).2 ++
         (ttyReceive writeFails (k + 1) rest
           (closeAll tc (fanOut writeFails k b tc.subscribers).2).1).2) := by
  have hc : (if (fanOut writeFails k b tc.subscribers).2.length > 0 then
      closeAll tc (fanOut writeFails k b tc.subscribers).2 else (tc, [])) =
      closeAll tc (fanOut writeFails k b tc.subscribers).2 := by
    split
    · rfl
    · rename_i h
      have hnil : (fanOut writeFails k b tc.subscribers).2 = [] :=
        List.length_eq_zero.mp (by omega)
      rw [hnil]
      rfl
  simp only [ttyReceive, hc]

/-- A subscriber that is not in the map gets nothing and stays out. -/
theorem ttyReceive_absent (writeFails : Nat → Nat → Bool) (aid : Nat) (bytes : Bytes) :
    ∀ (k : Nat) (tc : ttyContext), tc.subscribers.lookup aid = none →
      effectsOf aid (ttyReceive writeFails k bytes tc).2 = [] ∧
      (ttyReceive writeFails k bytes tc).1.subscribers.lookup aid = none := by
  induction bytes with
  | nil =>
    intro k tc h
    simp [ttyReceive, effectsOf, h]
  | cons b rest ih =>
    intro k tc h
    obtain ⟨f1, f2⟩ := fanOut_absent writeFails k b aid tc.subscribers h
    obtain ⟨c1, c2⟩ := (closeAll_spec tc (fanOut writeFails k b tc.subscribers).2 aid).1 f2
    obtain ⟨r1, r2⟩ := ih (k + 1) _ (c2.trans h)
    rw [ttyReceive_cons]
    simp only [effectsOf_append, f1, c1, r1, r2, List.append_nil, and_self]

theorem ttyReceive_present (writeFails : Nat → Nat → Bool) (aid h : Nat) ( io : TtyIO)
    (hout : io.Stdout = some h) (bytes : Bytes) :
    ∀ (k : Nat) (tc : ttyContext), (tc.subscribers.map Prod.fst).Nodup →
      tc.subscribers.lookup aid = some io →
      ((∀ n, n < bytes.length → writeFails h (k + n) = false) →
        effectsOf aid (ttyReceive writeFails k bytes tc).2 =
          bytes.map (fun b => TtyEffect.write h [b]) ∧
        (ttyReceive writeFails k bytes tc).1.subscribers.lookup aid = some io) ∧
      (∀ n, n < bytes.length → writeFails h (k + n) = true →
        (∀ j, j < n → writeFails h (k + j) = false) →
        effectsOf aid (ttyReceive writeFails k bytes tc).2 =
          (bytes.take n).map (fun b => TtyEffect.write h [b]) ++ removalEffects aid io ∧
        (ttyReceive writeFails k bytes tc).1.subscribers.lookup aid = none) := by
  induction bytes with
  | nil =>
    intro k tc hnd hl
    constructor
    · intro _
      simp [ttyReceive, effectsOf, hl]
    · intro n hn
      simp at hn
  | cons b rest ih =>
    intro k tc hnd hl
    obtain ⟨fok, ffail⟩ := fanOut_present writeFails k b aid h io tc.subscribers hnd hl hout
    have hnd2 := closeAll_nodup (fanOut writeFails k b tc.subscribers).2 tc hnd
    obtain ⟨cnot, cin⟩ := closeAll_spec tc (fanOut writeFails k b tc.subscribers).2 aid
    have stepOk : writeFails h k = false →
        effectsOf aid ((fanOut writeFails k b tc.subscribers).1 ++
          (closeAll tc (fanOut writeFails k b tc.subscribers).2).2) = [TtyEffect.write h [b]] ∧
        (closeAll tc (fanOut writeFails k b tc.subscribers).2).1.subscribers.lookup aid =
          some io := by
      intro hf
      obtain ⟨f1, f2⟩ := fok hf
      obtain ⟨c1, c2⟩ := cnot f2
      rw [effectsOf_append, f1, c1, c2]
      exact ⟨rfl, hl⟩
    constructor
    · intro hall
      have h0 : writeFails h k = false := by simpa using hall 0 (by simp)
      obtain ⟨s1, s2⟩ := stepOk h0
      obtain ⟨r1, r2⟩ := (ih (k + 1) _ hnd2 s2).1
        (fun n hn => by
          have := hall (n + 1) (by simpa using hn)
          rwa [show k + (n + 1) = k + 1 + n by omega] at this)
      rw [ttyReceive_cons]
      refine ⟨?_, r2⟩
      rw [effectsOf_append, s1, r1]
      rfl
    · intro n hn hfail hbefore
      rw [ttyReceive_cons]
      cases n with
      | zero =>
        have hf : writeFails h k = true := by simpa using hfail
        obtain ⟨f1, f2⟩ := ffail hf
        obtain ⟨c1, c2⟩ := cin io f2 hl
        obtain ⟨r1, r2⟩ := ttyReceive_absent writeFails aid rest (k + 1) _ c2
        refine ⟨?_, r2⟩
        rw [effectsOf_append, effectsOf_append, f1, c1, r1]
        simp
      | succ m =>
        have h0 : writeFails h k = false := by simpa using hbefore 0 (by omega)
        obtain ⟨s1, s2⟩ := stepOk h0
        have hm : m < rest.length := by simpa using hn
        obtain ⟨r1, r2⟩ := (ih (k + 1) _ hnd2 s2).2 m hm
          (by rwa [show k + (m + 1) = k + 1 + m by omega] at hfail)
          (fun j hj => by
            have := hbefore (j + 1) (by omega)
            rwa [show k + (j + 1) = k + 1 + j by omega] at this)
        refine ⟨?_, r2⟩
        rw [effectsOf_append, s1, r1]
        simp

/-- C16: in the reader loop `ttyReceive` over a subscriber map with distinct
attach ids, a subscriber with an output half whose writes never fail is
written every byte read from the hypervisor connection, one write per byte in
order, nothing else happens to it and it stays in the map, whatever the writes
of other subscribers do. A subscriber whose write first fails at byte number
`n` has been written the `n` bytes before, is removed by `closeTerm` once
after the fan-out of that byte, is written no later byte and is no longer in
the map at the end. -/
theorem ttyReceive_write_failure_local (writeFails : Nat → Nat → Bool) (tc : ttyContext)
    (bytes : Bytes) (aid h : Nat) ( io : TtyIO)
    (hnd : (tc.subscribers.map Prod.fst).Nodup)
    (hl : tc.subscribers.lookup aid = some io) (hout : io.Stdout = some h) :
    ((∀ n, n < bytes.length → writeFails h n = false) →
      effectsOf aid (ttyReceive writeFails 0 bytes tc).2 =
        bytes.map (fun b => TtyEffect.write h [b]) ∧
      (ttyReceive writeFails 0 bytes tc).1.subscribers.lookup aid = some io) ∧
    (∀ n, n < bytes.length → writeFails h n = true →
      (∀ j, j < n → writeFails h j = false) →
      effectsOf aid (ttyReceive writeFails 0 bytes tc).2 =
        (bytes.take n).map (fun b => TtyEffect.write h [b]) ++ removalEffects aid io ∧
      (ttyReceive writeFails 0 bytes tc).1.subscribers.lookup aid = none) := by
  have key := ttyReceive_present writeFails aid h io hout bytes 0 tc hnd hl
  simpa using key

/-- The output of subscriber 0 (output half 2) fails from byte number 1 on;
subscriber 1 (output half 5) is written all three bytes and subscriber 0 is
written the first byte and then removed. -/
theorem ttyReceive_write_failure_local_witness :
    (effectsOf 1 (ttyReceive (fun h k => h == 2 && decide (1 ≤ k)) 0 [104, 105, 33] sampleTc).2 =
        [104, 105, 33].map (fun b => TtyEffect.write 5 [b]) ∧
      (ttyReceive (fun h k => h == 2 && decide (1 ≤ k)) 0 [104, 105, 33]
        sampleTc).1.subscribers.lookup 1 = some sampleTtyB) ∧
    (effectsOf 0 (ttyReceive (fun h k => h == 2 && decide (1 ≤ k)) 0 [104, 105, 33] sampleTc).2 =
        ([104, 105, 33].take 1).map (fun b => TtyEffect.write 2 [b]) ++
          removalEffects 0 sampleTtyA ∧
      (ttyReceive (fun h k => h == 2 && decide (1 ≤ k)) 0 [104, 105, 33]
        sampleTc).1.subscribers.lookup 0 = none) :=
  ⟨(ttyReceive_write_failure_local (fun h k => h == 2 && decide (1 ≤ k)) sampleTc
      [104, 105, 33] 1 5 sampleTtyB (by decide) rfl rfl).1 (by intro n _; rfl),
   (ttyReceive_write_failure_local (fun h k => h == 2 && decide (1 ≤ k)) sampleTc
      [104, 105, 33] 0 2 sampleTtyA (by decide) rfl rfl).2 1 (by decide) (by decide)
      (by
        intro j hj
        have hj0 : j = 0 := by omega
        subst hj0
        rfl)⟩

/-! ## Theorems: line splitting -/

theorem ttyLinerLoop_eq (input : Bytes) :
    ∀ (line : Bytes) (cr : Bool) (prev : Option Nat) (out : List Bytes),
      (cr = true ↔ prev = some 13) →
      ttyLinerLoop input line cr false out =
        { lines := out ++ lineSegments prev line input, closed := 1 } := by
  induction input with
  | nil =>
    intro line cr prev out _
    simp [ttyLinerLoop, lineSegments]
  | cons b rest ih =>
    intro line cr prev out hcr
    by_cases h10 : b = 10
    · subst h10
      cases hc : cr with
      | true =>
        have hp : prev = some 13 := hcr.mp hc
        have := ih line false (some 10) out (by simp)
        simp [ttyLinerLoop, lineSegments, hp, this]
      | false =>
        have hp : ¬ prev = some 13 := fun hh => by
          have := hcr.mpr hh
          rw [hc] at this
          exact absurd this (by simp)
        have := ih [] false (some 10) (out ++ [line]) (by simp)
        simp [ttyLinerLoop, lineSegments, hp, this]
    · by_cases h13 : b = 13
      · subst h13
        have := ih [] true (some 13) (out ++ [line]) (by simp)
        simp [ttyLinerLoop, lineSegments, this]
      · have := ih (line ++ [b]) false (some b) out (by simp [h13])
        simp [ttyLinerLoop, lineSegments, h10, h13, this]

theorem lineSegments_clean (input : Bytes) :
    ∀ (prev : Option Nat) (seg : Bytes), (13 ∉ seg ∧ 10 ∉ seg) →
      ∀ l ∈ lineSegments prev seg input, 13 ∉ l ∧ 10 ∉ l := by
  induction input with
  | nil =>
    intro prev seg _ l hl
    simp [lineSegments] at hl
  | cons b rest ih =>
    intro prev seg hseg l hl
    by_cases h13 : b = 13
    · subst h13
      simp only [lineSegments, if_true, List.mem_cons] at hl
      rcases hl with hl | hl
      · rw [hl]
        exact hseg
      · exact ih (some 13) [] (by simp) l hl
    · by_cases h10 : b = 10
      · subst h10
        by_cases hp : prev = some 13
        · simp only [lineSegments, hp, if_true] at hl
          simp only [show ¬ (10 : Nat) = 13 by decide, if_false] at hl
          exact ih (some 10) seg hseg l hl
        · simp only [lineSegments, hp, if_false, if_true] at hl
          simp only [show ¬ (10 : Nat) = 13 by decide, if_false, List.mem_cons] at hl
          rcases hl with hl | hl
          · rw [hl]
            exact hseg
          · exact ih (some 10) [] (by simp) l hl
      · simp only [lineSegments, h13, h10, if_false] at hl
        refine ih (some b) (seg ++ [b]) ?_ l hl
        simp only [List.mem_append, List.mem_singleton, not_or]
        exact ⟨⟨hseg.1, fun hh => h13 hh.symm⟩, ⟨hseg.2, fun hh => h10 hh.symm⟩⟩

theorem lineSegments_tail (tail : Bytes) (ht : ∀ b ∈ tail, b ≠ 13 ∧ b ≠ 10) :
    ∀ (prev : Option Nat) (seg : Bytes), lineSegments prev seg tail = [] := by
  induction tail with
  | nil =>
    intro prev seg
    simp [lineSegments]
  | cons b rest ih =>
    intro prev seg
    have hb := ht b (by simp)
    have hrest : ∀ x ∈ rest, x ≠ 13 ∧ x ≠ 10 := fun x hx => ht x (by simp [hx])
    simp [lineSegments, hb.1, hb.2, ih hrest]

theorem lineSegments_append_tail (input tail : Bytes) (ht : ∀ b ∈ tail, b ≠ 13 ∧ b ≠ 10) :
    ∀ (prev : Option Nat) (seg : Bytes),
      lineSegments prev seg (input ++ tail) = lineSegments prev seg input := by
  induction input with
  | nil =>
    intro prev seg
    simp [lineSegments, lineSegments_tail tail ht]
  | cons b rest ih =>
    intro prev seg
    by_cases h13 : b = 13
    · simp [lineSegments, h13, ih]
    · by_cases h10 : b = 10
      · by_cases hp : prev = some 13 <;> simp [lineSegments, h10, hp, ih]
      · simp [lineSegments, h13, h10, ih]

/-- C19: for every finite input, the strings `ttyLiner` sends on `output` are
the segments ended by a terminator, in order: a carriage return ends a
segment, a line feed ends one unless a carriage return comes right before it
(so "\r\n" gives one line and "\n\r" gives two). No string sent contains a
carriage return or a line feed, the bytes after the last terminator are not
sent, and the output channel is closed once when the input ends. -/
theorem ttyLiner_lines (input : Bytes) :
    (ttyLiner input).lines = lineSegments none [] input ∧
    (ttyLiner input).closed = 1 ∧
    (∀ l ∈ (ttyLiner input).lines, 13 ∉ l ∧ 10 ∉ l) ∧
    (∀ tail, (∀ b ∈ tail, b ≠ 13 ∧ b ≠ 10) →
      (ttyLiner (input ++ tail)).lines = (ttyLiner input).lines) ∧
    (ttyLiner [97, 98, 13, 10, 99]).lines = [[97, 98]] ∧
    (ttyLiner [97, 98, 10, 13, 99]).lines = [[97, 98], []] := by
  have h : ∀ i : Bytes, ttyLiner i = { lines := lineSegments none [] i, closed := 1 } := by
    intro i
    have := ttyLinerLoop_eq i [] false none [] (by simp)
    simpa [ttyLiner] using this
  refine ⟨by rw [h], by rw [h], ?_, ?_, by decide, by decide⟩
  · rw [h]
    exact lineSegments_clean input none [] (by simp)
  · intro tail ht
    rw [h, h]
    exact lineSegments_append_tail input tail ht none []

/-- The console prints "ok", carriage return, line feed, "$ ": the line "ok"
is sent, and the prompt after the last terminator is not. -/
theorem ttyLiner_lines_witness :
    (ttyLiner ([111, 107, 13, 10] ++ [36, 32])).lines = (ttyLiner [111, 107, 13, 10]).lines ∧
    (13 ∉ [111, 107] ∧ 10 ∉ [111, 107]) :=
  ⟨(ttyLiner_lines [111, 107, 13, 10]).2.2.2.1 [36, 32] (by decide),
   (ttyLiner_lines [111, 107, 13, 10]).2.2.1 [111, 107] (by decide)⟩

/-! ## Theorems: when the pod is started -/

theorem startPod_runPodIfReady (ops : DeviceOps δ) (c : QemuContext δ) :
    (startPodCount c.vm < startPodCount (runPodIfReady ops c).vm → ops.deviceReady c.dev = true) ∧
    (runPodIfReady ops c).qmp = c.qmp := by
  unfold runPodIfReady
  by_cases h : ops.deviceReady c.dev = true
  · simp [h, (runPod_frame ops c).2.1]
  · simp [h]

/-- C18 (amended): for every event handled by `stateInit`, a START_POD message
is written to `ctx.vm` only for a readiness event after whose bookkeeping
`deviceReady()` is true. A ContainerCreated or VolumeReady event whose slot
needs a block device writes nothing to `ctx.vm` and submits one disk-add
session; an InterfaceCreated event with a non-empty IpAddr writes nothing to
`ctx.vm` and submits one network-add session, and one with an empty IpAddr
writes nothing to `ctx.vm` and submits no session. RunPodCommand,
InitConnected, InitFailed and CommandAck write nothing to `ctx.vm`. -/
theorem startPod_only_when_ready (ops : DeviceOps δ) (ctx : QemuContext δ) (ev : QemuEvent) :
    (startPodCount ctx.vm < startPodCount (stateInit ops ctx ev).vm →
      isReadinessEvent ev = true ∧ ops.deviceReady (bookkeeping ops ctx.dev ev) = true) ∧
    (∀ info, (ops.containerCreated ctx.dev info).2 = true →
      (stateInit ops ctx (QemuEvent.ContainerCreatedEvent info)).vm = ctx.vm ∧
      (stateInit ops ctx (QemuEvent.ContainerCreatedEvent info)).qmp = ctx.qmp ++
        [QmpSession.diskAdd info.Image "image" info.Image "raw"
          (ops.nextScsiId (ops.containerCreated ctx.dev info).1).2]) ∧
    (∀ info, (ops.volumeReady ctx.dev info).2 = true →
      (stateInit ops ctx (QemuEvent.VolumeReadyEvent info)).vm = ctx.vm ∧
      (stateInit ops ctx (QemuEvent.VolumeReadyEvent info)).qmp = ctx.qmp ++
        [QmpSession.diskAdd info.Name "volume" info.Filepath info.Format
          (ops.nextScsiId (ops.volumeReady ctx.dev info).1).2]) ∧
    (∀ info : InterfaceCreated, info.IpAddr ≠ "" →
      (stateInit ops ctx (QemuEvent.InterfaceCreated info)).vm = ctx.vm ∧
      (stateInit ops ctx (QemuEvent.InterfaceCreated info)).qmp = ctx.qmp ++
        [QmpSession.networkAdd info.Fd info.DeviceName info.Index info.PCIAddr]) ∧
    (∀ info : InterfaceCreated, info.IpAddr = "" →
      (stateInit ops ctx (QemuEvent.InterfaceCreated info)).vm = ctx.vm ∧
      (stateInit ops ctx (QemuEvent.InterfaceCreated info)).qmp = ctx.qmp) ∧
    (∀ spec, (stateInit ops ctx (QemuEvent.RunPodCommand spec)).vm = ctx.vm) ∧
    (∀ conn, (stateInit ops ctx (QemuEvent.InitConnectedEvent conn)).vm = ctx.vm) ∧
    (∀ reason, (stateInit ops ctx (QemuEvent.InitFailedEvent reason)).vm = ctx.vm) ∧
    (∀ reply msg, (stateInit ops ctx (QemuEvent.CommandAck reply msg)).vm = ctx.vm) := by
  refine ⟨?_, ?_, ?_, ?_, ?_, ?_, ?_, ?_, ?_⟩
  · cases ev with
    | RunPodCommand spec =>
      have h := (prepareDevice_keeps ops ctx spec).2.1
      simp [stateInit, commonStateHandler, h]
    | ContainerCreatedEvent info =>
      simp only [stateInit, commonStateHandler, isReadinessEvent, bookkeeping]
      split
      · simp at *
      · split
        · simp
        · intro h
          exact ⟨trivial, (startPod_runPodIfReady ops
            { ctx with dev := (ops.containerCreated ctx.dev info).1 }).1 h⟩
    | VolumeReadyEvent info =>
      simp only [stateInit, commonStateHandler, isReadinessEvent, bookkeeping]
      split
      · simp at *
      · split
        · simp
        · intro h
          exact ⟨trivial, (startPod_runPodIfReady ops
            { ctx with dev := (ops.volumeReady ctx.dev info).1 }).1 h⟩
    | BlockdevInsertedEvent info =>
      intro h
      exact ⟨rfl, (startPod_runPodIfReady ops
        { ctx with dev := ops.blockdevInserted ctx.dev info }).1
        (by simpa [stateInit, commonStateHandler] using h)⟩
    | NetDevInsertedEvent info =>
      intro h
      exact ⟨rfl, (startPod_runPodIfReady ops
        { ctx with dev := ops.netdevInserted ctx.dev info }).1
        (by simpa [stateInit, commonStateHandler] using h)⟩
    | SerialAddEvent info =>
      intro h
      exact ⟨rfl, (startPod_runPodIfReady ops
        { ctx with dev := ops.serialAttached ctx.dev info }).1
        (by simpa [stateInit, commonStateHandler] using h)⟩
    | TtyOpenEvent info =>
      intro h
      exact ⟨rfl, (startPod_runPodIfReady ops
        { ctx with dev := ops.ttyOpened ctx.dev info }).1
        (by simpa [stateInit, commonStateHandler] using h)⟩
    | InitConnectedEvent conn =>
      cases conn <;> simp [stateInit, commonStateHandler]
    | CommandAck reply msg =>
      by_cases h : reply = INIT_STARTPOD <;>
        simp [stateInit, commonStateHandler, h, QemuContext.Become]
    | InterfaceCreated info =>
      by_cases h : info.IpAddr = "" <;> simp [stateInit, commonStateHandler, h]
    | QmpEvent ty =>
      by_cases h : ty = QMP_EVENT_SHUTDOWN <;>
        simp [stateInit, commonStateHandler, h, onQemuExit, QemuContext.Become]
    | ShutdownCommand =>
      simp [stateInit, commonStateHandler, QemuContext.Become, startPodCount_append,
        startPodCount, INIT_SHUTDOWN, INIT_STARTPOD]
    | _ =>
      simp [stateInit, commonStateHandler, onQemuExit, QemuContext.Become, QemuContext.Close]
  · intro info h
    simp [stateInit, commonStateHandler, h]
  · intro info h
    simp [stateInit, commonStateHandler, h]
  · intro info h
    simp [stateInit, commonStateHandler, h]
  · intro info h
    simp [stateInit, commonStateHandler, h]
  · intro spec
    simpa [stateInit, commonStateHandler] using (prepareDevice_keeps ops ctx spec).2.1
  · intro conn
    cases conn <;> simp [stateInit, commonStateHandler]
  · intro reason
    simp [stateInit, commonStateHandler]
  · intro reply msg
    by_cases h : reply = INIT_STARTPOD <;>
      simp [stateInit, commonStateHandler, h, QemuContext.Become]

/-- The last pending device is inserted and the pod is started; a container
that needs a block device gets a disk-add session and no START_POD. -/
theorem startPod_only_when_ready_witness :
    (isReadinessEvent sampleBlockInserted = true ∧
      countingOps.deviceReady
        (bookkeeping countingOps (freshContext Handler.init 1).dev sampleBlockInserted) = true) ∧
    ((stateInit blockOps (freshContext Handler.init 0) sampleContainerCreated).vm = [] ∧
      (stateInit blockOps (freshContext Handler.init 0) sampleContainerCreated).qmp =
        [] ++ [QmpSession.diskAdd "/dev/mapper/c0" "image" "/dev/mapper/c0" "raw" 0]) ∧
    ((stateInit countingOps (freshContext Handler.init 3) (sampleInterface 0 "")).vm = [] ∧
      (stateInit countingOps (freshContext Handler.init 3) (sampleInterface 0 "")).qmp = []) :=
  ⟨(startPod_only_when_ready countingOps (freshContext Handler.init 1) sampleBlockInserted).1
      (by decide),
   (startPod_only_when_ready blockOps (freshContext Handler.init 0) sampleBlockInserted).2.1
      { Index := 0, Id := "c0", Rootfs := "/rootfs", Image := "/dev/mapper/c0",
        Fstype := "ext4", Workdir := "/", Cmd := ["sh"], Envs := [] } rfl,
   (startPod_only_when_ready countingOps (freshContext Handler.init 3) sampleBlockInserted).2.2.2.2.1
      { Index := 0, PCIAddr := 5, Fd := 7, DeviceName := "eth0", IpAddr := "",
        NetMask := "255.255.255.0", RouteTable := [] } rfl⟩

/-- C18 (counterexample): an InterfaceCreated event with an empty IpAddr
handled by `stateInit` submits no session on `ctx.qmp`. -/
theorem interfaceCreated_no_session_counterexample :
    ¬ ((stateInit countingOps (freshContext Handler.init 3) (sampleInterface 0 "")).qmp.length
        = (freshContext Handler.init 3).qmp.length + 1) := by
  decide

/-! ## Theorems: image and volume provisioner -/

theorem provisionContainers_events (ext : Externals) (d : DriverSettings) (files : List UserFile)
    (sharedDir : String) (cs : List UserContainer) :
    ∀ (i : Nat) (devFullName : String),
      (provisionContainers ext d files sharedDir i cs devFullName).1.filter isInitFailed = [] := by
  induction cs with
  | nil =>
    intro i devFullName
    simp [provisionContainers]
  | cons c cs ih =>
    intro i devFullName
    simp only [provisionContainers]
    cases provisionContainer ext d files sharedDir i c devFullName with
    | error e => simp
    | ok r => simpa [List.filter_cons, isInitFailed] using ih (i + 1) r.1

theorem provisionVolumes_events (ext : Externals) (d : DriverSettings) (sharedDir : String)
    (vs : List UserVolume) :
    ∀ k : Nat, (provisionVolumes ext d sharedDir k vs).1.filter isInitFailed = [] := by
  induction vs with
  | nil =>
    intro k
    simp [provisionVolumes]
  | cons v vs ih =>
    intro k
    simp only [provisionVolumes]
    cases provisionVolume ext d sharedDir k v with
    | error e => simp
    | ok ev => simpa [List.filter_cons, isInitFailed] using ih (k + 1)

/-- C17 (the code at the failing input): when the `info` call of the container
runtime fails, `CreateContainer` returns the error and posts nothing on the
hub, whatever the pod declares; no call of `CreateContainer` ever posts an
InitFailedEvent. On a host where every call succeeds the pod with one
container and one volume gets its two events; when the create call of the
runtime fails for that pod, no event at all is posted. -/
theorem createContainer_failure_posts_nothing (ext : Externals) (userPod : UserPod)
    (sharedDir : String) (e : String) :
    CreateContainer { ext with SendCmdInfo := Reply.sendFailed e } userPod sharedDir =
      { events := [], ending := Ending.returned "" (some e) } ∧
    (CreateContainer ext userPod sharedDir).events.filter isInitFailed = [] ∧
    (CreateContainer healthyHost samplePod "/var/run/dvm/share").events.length = 2 ∧
    CreateContainer { healthyHost with SendCmdCreate := fun _ _ => Reply.sendFailed "no such image" }
        samplePod "/var/run/dvm/share" =
      { events := [], ending := Ending.returned "" (some "no such image") } := by
  refine ⟨?_, ?_, ?_, ?_⟩
  · simp [CreateContainer, queryDriver]
  · unfold CreateContainer
    cases queryDriver ext with
    | error en => simp
    | ok d =>
      have h1 := provisionContainers_events ext d userPod.Files sharedDir userPod.Containers 0 ""
      have h2 := provisionVolumes_events ext d sharedDir userPod.Volumes 0
      simp only []
      cases hc : (provisionContainers ext d userPod.Files sharedDir 0 userPod.Containers "").2 with
      | some en => simpa using h1
      | none =>
        simp only []
        cases hv : (provisionVolumes ext d sharedDir 0 userPod.Volumes).2 with
        | some en => simp [List.filter_append, h1, h2]
        | none => simp [List.filter_append, h1, h2]
  · decide
  · decide

end Qemu
